import Mathlib

/-!
Verification development for the NBODY_VR visualizer.

The program renders N-body simulation output (black-hole and neutron-star
trajectories plus merge/exchange events) with three.js.  The repository ships
three variants of the same design: the VR build in main.js, an older non-VR
build appended to main.js, and a compact VR build (part_000).  This file gives
a shallow embedding over the reals of the orbital reconstruction, the event
classification, the kinematics derivation and the scene-state synchronisation
of those variants, and proves or refutes the specified properties about them.

Conventions of the embedding:
  - JS numbers are modelled as real numbers; quantities that are always finite
    in the reals (so the isFinite guards of the source hold trivially) are
    noted where they occur.  A dedicated small model (section JSGuard) keeps
    the NaN / infinity distinctions where a claim is about them.
  - JS Map objects keyed by particle id are modelled as functions
    Int to Option value.
  - three.js scene objects are modelled by records of their defining
    parameters (position, scale, colour, opacity, ...); colours are the hex
    numbers of the source.
-/

namespace NBodyVR

noncomputable section
open scoped Classical

/-- Three-component real vector, modelling THREE.Vector3 as the program uses it. -/
@[ext]
structure Vec3 where
  x : ℝ
  y : ℝ
  z : ℝ

namespace Vec3

instance : Zero Vec3 := ⟨⟨0, 0, 0⟩⟩
instance : Add Vec3 := ⟨fun a b => ⟨a.x + b.x, a.y + b.y, a.z + b.z⟩⟩
instance : Sub Vec3 := ⟨fun a b => ⟨a.x - b.x, a.y - b.y, a.z - b.z⟩⟩
instance : Neg Vec3 := ⟨fun a => ⟨-a.x, -a.y, -a.z⟩⟩
instance : SMul ℝ Vec3 := ⟨fun c a => ⟨c * a.x, c * a.y, c * a.z⟩⟩

@[simp] lemma zero_x : (0 : Vec3).x = 0 := rfl
@[simp] lemma zero_y : (0 : Vec3).y = 0 := rfl
@[simp] lemma zero_z : (0 : Vec3).z = 0 := rfl
@[simp] lemma add_x (a b : Vec3) : (a + b).x = a.x + b.x := rfl
@[simp] lemma add_y (a b : Vec3) : (a + b).y = a.y + b.y := rfl
@[simp] lemma add_z (a b : Vec3) : (a + b).z = a.z + b.z := rfl
@[simp] lemma sub_x (a b : Vec3) : (a - b).x = a.x - b.x := rfl
@[simp] lemma sub_y (a b : Vec3) : (a - b).y = a.y - b.y := rfl
@[simp] lemma sub_z (a b : Vec3) : (a - b).z = a.z - b.z := rfl
@[simp] lemma neg_x (a : Vec3) : (-a).x = -a.x := rfl
@[simp] lemma neg_y (a : Vec3) : (-a).y = -a.y := rfl
@[simp] lemma neg_z (a : Vec3) : (-a).z = -a.z := rfl
@[simp] lemma smul_x (c : ℝ) (a : Vec3) : (c • a).x = c * a.x := rfl
@[simp] lemma smul_y (c : ℝ) (a : Vec3) : (c • a).y = c * a.y := rfl
@[simp] lemma smul_z (c : ℝ) (a : Vec3) : (c • a).z = c * a.z := rfl

/-- Dot product (THREE.Vector3.dot). -/
def dot (a b : Vec3) : ℝ := a.x * b.x + a.y * b.y + a.z * b.z

/-- Cross product (THREE.Vector3.crossVectors). -/
def cross (a b : Vec3) : Vec3 :=
  ⟨a.y * b.z - a.z * b.y, a.z * b.x - a.x * b.z, a.x * b.y - a.y * b.x⟩

/-- Squared length (THREE.Vector3.lengthSq). -/
def lengthSq (a : Vec3) : ℝ := dot a a

/-- Euclidean length (THREE.Vector3.length). -/
def length (a : Vec3) : ℝ := Real.sqrt (lengthSq a)

/-- Normalisation (THREE.Vector3.normalize, i.e. division by the length).
For the zero vector the source produces NaN components; over the reals the
division by zero yields the zero vector instead, and every use in this file is
guarded or irrelevant in that case. -/
def normalize (a : Vec3) : Vec3 := (1 / a.length) • a

/-- Linear interpolation (THREE.Vector3.lerp). -/
def lerp (a b : Vec3) (t : ℝ) : Vec3 := a + t • (b - a)

lemma dot_comm (a b : Vec3) : dot a b = dot b a := by
  simp only [dot]; ring

lemma dot_self_nonneg (a : Vec3) : 0 ≤ dot a a := by
  simp only [dot]
  nlinarith [mul_self_nonneg a.x, mul_self_nonneg a.y, mul_self_nonneg a.z]

lemma dot_self_eq_zero {a : Vec3} : dot a a = 0 ↔ a = 0 := by
  constructor
  · intro h
    simp only [dot] at h
    have hx : a.x = 0 := by nlinarith [sq_nonneg a.x, sq_nonneg a.y, sq_nonneg a.z]
    have hy : a.y = 0 := by nlinarith [sq_nonneg a.x, sq_nonneg a.y, sq_nonneg a.z]
    have hz : a.z = 0 := by nlinarith [sq_nonneg a.x, sq_nonneg a.y, sq_nonneg a.z]
    ext <;> simpa
  · rintro rfl
    simp [dot]

lemma dot_smul_left (c : ℝ) (a b : Vec3) : dot (c • a) b = c * dot a b := by
  simp only [dot, smul_x, smul_y, smul_z]; ring

lemma dot_smul_right (c : ℝ) (a b : Vec3) : dot a (c • b) = c * dot a b := by
  simp only [dot, smul_x, smul_y, smul_z]; ring

lemma dot_sub_left (a b c : Vec3) : dot (a - b) c = dot a c - dot b c := by
  simp only [dot, sub_x, sub_y, sub_z]; ring

lemma dot_sub_right (a b c : Vec3) : dot a (b - c) = dot a b - dot a c := by
  simp only [dot, sub_x, sub_y, sub_z]; ring

lemma dot_add_left (a b c : Vec3) : dot (a + b) c = dot a c + dot b c := by
  simp only [dot, add_x, add_y, add_z]; ring

/-- The cross product is orthogonal to its first factor. -/
lemma dot_self_cross (a b : Vec3) : dot a (cross a b) = 0 := by
  simp only [dot, cross]; ring

/-- The cross product is orthogonal to its second factor. -/
lemma dot_cross_self (a b : Vec3) : dot b (cross a b) = 0 := by
  simp only [dot, cross]; ring

/-- Lagrange identity for the squared length of a cross product. -/
lemma dot_cross_cross (a b : Vec3) :
    dot (cross a b) (cross a b) = dot a a * dot b b - dot a b * dot a b := by
  simp only [dot, cross]; ring

/-- Scalar triple product: dot products of the cyclic permutations agree. -/
lemma dot_cross_cycle (a b c : Vec3) :
    dot (cross a b) c = dot (cross b c) a := by
  simp only [dot, cross]; ring

lemma length_nonneg (a : Vec3) : 0 ≤ length a := Real.sqrt_nonneg _

lemma sq_length (a : Vec3) : length a * length a = dot a a :=
  Real.mul_self_sqrt (dot_self_nonneg a)

lemma length_eq_zero {a : Vec3} : length a = 0 ↔ a = 0 := by
  rw [length, lengthSq, Real.sqrt_eq_zero (dot_self_nonneg a), dot_self_eq_zero]

lemma length_pos_of_ne {a : Vec3} (h : a ≠ 0) : 0 < length a :=
  lt_of_le_of_ne (length_nonneg a) (fun h0 => h (length_eq_zero.mp h0.symm))

end Vec3

/-! Constants of the program (part_000 values where the variants differ). -/

/-- Gravitational constant of the source, in pc^3 / (M_sun Myr^2). -/
def G : ℝ := 4.4985e-3

lemma G_pos : 0 < G := by norm_num [G]

/-- Simulation box half-width (SIMULATION_BOUNDS). -/
def SIMULATION_BOUNDS : ℝ := 40

/-- Dimensionless pseudo-spin parameter (PSEUDO_SPIN_PARAMETER_A). -/
def PSEUDO_SPIN_PARAMETER_A : ℝ := 0.6

/-- Visual scale for spin vectors (SPIN_VECTOR_SCALE, part_000 value). -/
def SPIN_VECTOR_SCALE : ℝ := 0.01

/-! Colour constants (hex values from part_000). -/

def DEFAULT_COLOR : Nat := 0x111111
def BINARY_PARTICLE_COLOR : Nat := 0xff00ff
def INTERLOPER_PARTICLE_COLOR : Nat := 0xff3131
def PRE_EXCHANGE_ORBIT_COLOR : Nat := 0x39ff14
def POST_EVENT_COLOR : Nat := 0x00ffff
def VECTOR_COLOR : Nat := 0x0000ff
def SPIN_VECTOR_COLOR : Nat := 0xff0000
def REMNANT_VEL_COLOR : Nat := 0x00ffff
def MERGE_SPIN_COLOR : Nat := 0xff8c00
def COM_VELOCITY_COLOR : Nat := 0x0000ff

/-- Fresh-material colour of a newly created black-hole sphere: part_000 builds
MeshPhysicalMaterial without a colour, whose three.js default is white. -/
def FRESH_MATERIAL_COLOR : Nat := 0xffffff

/-! Data records, mirroring the parsed CSV rows. -/

/-- One black-hole trajectory row: (time, id, mass, position, velocity). -/
structure BHRecord where
  bh_id : Int
  mass_msun : ℝ
  x : ℝ
  y : ℝ
  z : ℝ
  vx : ℝ
  vy : ℝ
  vz : ℝ

/-- Position vector of a record. -/
def BHRecord.pos (b : BHRecord) : Vec3 := ⟨b.x, b.y, b.z⟩

/-- Velocity vector of a record. -/
def BHRecord.vel (b : BHRecord) : Vec3 := ⟨b.vx, b.vy, b.vz⟩

/-- One neutron-star trajectory row. -/
structure NSRecord where
  ns_id : Int
  mass_msun : ℝ
  x : ℝ
  y : ℝ
  z : ℝ

/-- Position vector of a neutron-star record. -/
def NSRecord.pos (n : NSRecord) : Vec3 := ⟨n.x, n.y, n.z⟩

/-- Event kind tag from the event catalog (event_list column). -/
inductive EType where
  | EXCHANGE : EType
  | MERGE : EType
deriving DecidableEq

/-- One row of the interaction-event catalog.  For MERGE rows the source
parses id3/id4 as NaN and never reads them; any value may stand there. -/
structure InteractionEvent where
  etype : EType
  time : ℝ
  id1 : Int
  id2 : Int
  id3 : Int
  id4 : Int

/-- Record lookup by id (the data.find(b => b.bh_id === id) idiom). -/
def findRec (id : Int) (data : List BHRecord) : Option BHRecord :=
  data.find? (fun b => b.bh_id == id)

/-- Neutron-star record lookup by id. -/
def findNs (id : Int) (data : List NSRecord) : Option NSRecord :=
  data.find? (fun n => n.ns_id == id)

/-! Scene objects, modelled by their defining parameters. -/

/-- A persistent black-hole sphere: mesh position, uniform scale, material
colour and opacity, and the userData.bhData record stored on it. -/
@[ext]
structure Sphere where
  bhData : BHRecord
  pos : Vec3
  scale : ℝ
  color : Nat
  opacity : ℝ

/-- A persistent neutron-star sphere. -/
@[ext]
structure NSSphere where
  nsData : NSRecord
  pos : Vec3
  scale : ℝ
  visible : Bool

/-- A transient ArrowHelper: origin, normalised direction, length, colour. -/
structure Arrow where
  origin : Vec3
  dir : Vec3
  len : ℝ
  color : Nat

/-- A transient orbit-ellipse line.  The source builds a THREE.Line from an
EllipseCurve with centre (-a s e, 0), half-axes (a s, b s), positions it at the
centre of mass minus the frame offset, orients it by the quaternion taking the
z axis to the normalised angular momentum and a rotation about z by an angle
computed from hvec and evec (plus pi for the second half).  The quaternion,
the in-plane angle and the focus offset are fixed functions of the fields kept
here, so this record determines the rendered line. -/
structure EllipseVis where
  idA : Int
  idB : Int
  half : Nat
  a : ℝ
  b : ℝ
  ecc : ℝ
  center : Vec3
  hvec : Vec3
  evec : Vec3
  color : Nat

/-- Session settings and loaded data, read by updateBlackHoles.  Mirrors the
module-level variables of part_000 that the update cycle only reads. -/
structure Env where
  timeKeys : List ℝ
  timeData : ℝ → List BHRecord
  nsData : ℝ → List NSRecord
  selectedEvent : Option InteractionEvent
  highlightedBhId : Option Int
  massFilterMin : Option ℝ
  massFilterMax : Option ℝ
  useComFrame : Bool
  showSpinVectors : Bool
  isCameraTracking : Bool
  xrPresenting : Bool
  nsVisibleChecked : Bool
  velScaleMultiplier : ℝ
  spinScaleMultiplier : ℝ
  particleSizeMultiplier : ℝ
  highlightColor : Nat
  massRangeColor : Nat

/-- Mutable visual state owned by the update cycle: the per-id sphere maps,
the per-frame transient visuals, the reference-frame box position, the two UI
fields the update writes, and the camera target goal. -/
structure VisState where
  bhObjects : Int → Option Sphere
  nsObjects : Int → Option NSSphere
  eventVectors : List Arrow
  ellipses : List EllipseVis
  cubeFramePos : Vec3
  sliderValue : Int
  timeLabel : ℝ
  cameraTargetGoal : Vec3

/-- Output of an event handler: recoloured spheres plus the transient arrows
and ellipses it pushed. -/
structure HandlerOut where
  spheres : Int → Option Sphere
  arrows : List Arrow
  ellipses : List EllipseVis

/-! Drawing helpers (part_000 drawArrow / drawVel, and the inline
centre-of-mass velocity arrow shared by both handlers). -/

/-- drawArrow of part_000 (drawVector of main.js takes the same guard): a
too-short arrow is suppressed, otherwise an ArrowHelper with the normalised
direction is added to the scene and tracked in eventVectors.  The source also
suppresses the draw when direction.x is NaN; over the reals there is no NaN
(section JSGuard models that part of the guard exactly). -/
def drawArrow (p d : Vec3) (l : ℝ) (c : Nat) : List Arrow :=
  if l ≤ 1e-6 then [] else [⟨p, d.normalize, l, c⟩]

/-- drawVel of part_000: look up the record of the id and draw its velocity
from its (frame-shifted) position with length speed * sc * velScaleMultiplier. -/
def drawVel (vsm : ℝ) (id : Int) (data : List BHRecord) (com : Vec3)
    (col : Nat) (sc : ℝ) : List Arrow :=
  match findRec id data with
  | none => []
  | some d => drawArrow (d.pos - com) d.vel (d.vel.length * sc * vsm) col

/-- Mass-weighted average position of two records (the inline p1 m1 + p2 m2
over m1 + m2 computation of the handlers). -/
def comPos (b1 b2 : BHRecord) : Vec3 :=
  (1 / (b1.mass_msun + b2.mass_msun)) • (b1.mass_msun • b1.pos + b2.mass_msun • b2.pos)

/-- Mass-weighted average velocity of two records. -/
def comVel (b1 b2 : BHRecord) : Vec3 :=
  (1 / (b1.mass_msun + b2.mass_msun)) • (b1.mass_msun • b1.vel + b2.mass_msun • b2.vel)

/-- The centre-of-mass velocity arrow both handlers draw for the current pair
(drawComVel in handleExchangeEvent; the same inline code in the pre-merge
branch of handleMergeEvent). -/
def comVelArrow (vsm : ℝ) (i1 i2 : Int) (data : List BHRecord) (com : Vec3) :
    List Arrow :=
  match findRec i1 data, findRec i2 data with
  | some b1, some b2 =>
      drawArrow (comPos b1 b2 - com) (comVel b1 b2) ((comVel b1 b2).length * 20 * vsm)
        COM_VELOCITY_COLOR
  | _, _ => []

/-! Orbit reconstruction (drawOrbit of part_000). -/

/-- Eccentricity vector as the source computes it:
(v cross h) / mu minus the unit relative position. -/
def eccVec (mu : ℝ) (r v : Vec3) : Vec3 :=
  (1 / mu) • Vec3.cross v (Vec3.cross r v) - r.normalize

/-- drawOrbit of part_000: reconstruct the two barycentric ellipses of a pair
from instantaneous state.  Guards: binary energy en must be negative and
eccentricity below one, otherwise nothing is drawn.  The two rendered ellipses
are the relative ellipse scaled by m2/M and m1/M.  The source has no
zero-separation guard, so that path follows the JS float evaluation, which the
real embedding cannot express by the same formulas (real division by zero is
zero) and is therefore spelled out as an explicit branch: for M above zero,
G M / 0 is positive infinity, so en is negative infinity and passes en < 0;
a = -G M / (2 en) is then zero; the three.js normalize of the zero vector
divides by (length || 1) = 1 and returns the zero vector, so ev = 0 and
e = 0 < 1; b = a sqrt(1 - 0) = 0; two degenerate ellipses with both half-axes
zero are created and added.  For M = 0 the division is 0/0 = NaN, en = NaN
fails en < 0; for M below zero en is positive infinity and also fails: no
draw in either case. -/
def drawOrbit (id1 id2 : Int) (data : List BHRecord) (com : Vec3) (col : Nat) :
    List EllipseVis :=
  match findRec id1 data, findRec id2 data with
  | some b1, some b2 =>
      let m1 := b1.mass_msun
      let m2 := b2.mass_msun
      let M := m1 + m2
      let relR := b1.pos - b2.pos
      let relV := b1.vel - b2.vel
      let h := Vec3.cross relR relV
      let cp := comPos b1 b2
      if relR.length = 0 then
        if 0 < M then
          [⟨id1, id2, 0, 0, 0, 0, cp - com, h, 0, col⟩,
           ⟨id1, id2, 1, 0, 0, 0, cp - com, h, 0, col⟩]
        else []
      else
        let en := 0.5 * relV.lengthSq - G * M / relR.length
        if en < 0 then
          let a := -(G * M) / (2 * en)
          let ev := eccVec (G * M) relR relV
          let e := ev.length
          if e < 1 then
            let b := a * Real.sqrt (1 - e * e)
            [⟨id1, id2, 0, a * (m2 / M), b * (m2 / M), e, cp - com, h, ev, col⟩,
             ⟨id1, id2, 1, a * (m1 / M), b * (m1 / M), e, cp - com, h, ev, col⟩]
          else []
        else []
  | _, _ => []

/-! Event classification and handling. -/

/-- The interloper of an exchange event: the new-binary id that is not in the
old binary (part_000 line 143). -/
def exchangeInterloper (e : InteractionEvent) : Int :=
  if e.id3 = e.id1 ∨ e.id3 = e.id2 then e.id4 else e.id3

/-- The ejected particle of an exchange event: the old-binary id that is not
in the new binary (part_000 line 144). -/
def exchangeEjected (e : InteractionEvent) : Int :=
  if e.id1 = e.id3 ∨ e.id1 = e.id4 then e.id2 else e.id1

/-- Recolouring a sphere in handleExchangeEvent: non-actors are dimmed to
opacity 0.1 with the default colour; actors get full opacity and the
old-binary / interloper / default colour. -/
def recolorExchange (e : InteractionEvent) (id : Int) (s : Sphere) : Sphere :=
  if ¬(id = e.id1 ∨ id = e.id2 ∨ id = e.id3 ∨ id = e.id4) then
    { s with opacity := 0.1, color := DEFAULT_COLOR }
  else if id = e.id1 ∨ id = e.id2 then
    { s with opacity := 1, color := BINARY_PARTICLE_COLOR }
  else if id = exchangeInterloper e then
    { s with opacity := 1, color := INTERLOPER_PARTICLE_COLOR }
  else
    { s with opacity := 1, color := DEFAULT_COLOR }

/-- handleExchangeEvent of part_000: recolour all spheres, then in the
pre-event phase draw the old-binary orbit, its centre-of-mass velocity arrow
and the interloper velocity; in the post phase draw the new-binary orbit, its
centre-of-mass velocity arrow and the ejected-particle velocity. -/
def handleExchangeEvent (vsm : ℝ) (e : InteractionEvent) (time : ℝ)
    (bhData : List BHRecord) (com : Vec3) (spheres : Int → Option Sphere) :
    HandlerOut :=
  let spheres' := fun id => (spheres id).map (recolorExchange e id)
  if time < e.time then
    ⟨spheres',
     comVelArrow vsm e.id1 e.id2 bhData com ++
       drawVel vsm (exchangeInterloper e) bhData com VECTOR_COLOR 20,
     drawOrbit e.id1 e.id2 bhData com PRE_EXCHANGE_ORBIT_COLOR⟩
  else
    ⟨spheres',
     comVelArrow vsm e.id3 e.id4 bhData com ++
       drawVel vsm (exchangeEjected e) bhData com VECTOR_COLOR 20,
     drawOrbit e.id3 e.id4 bhData com POST_EVENT_COLOR⟩

/-- Remnant determination of handleMergeEvent (part_000 line 179, and
main.js lines 406-408 inside the post-phase branch): whichever progenitor id
is present in the current particle set, preferring id1. -/
def mergeRemnant (e : InteractionEvent) (bhData : List BHRecord) : Option Int :=
  let curIds := bhData.map (·.bh_id)
  if curIds.contains e.id1 then some e.id1
  else if curIds.contains e.id2 then some e.id2
  else none

/-- Recolouring a sphere in handleMergeEvent.  Non-actors are dimmed (colour
kept).  Actors get full opacity; pre-phase progenitors get the binary colour;
in the post phase the remnant gets the post-event colour and any other actor
is dimmed again (colour kept). -/
def recolorMerge (e : InteractionEvent) (rid : Option Int) (time : ℝ)
    (id : Int) (s : Sphere) : Sphere :=
  if ¬(id = e.id1 ∨ id = e.id2 ∨ some id = rid) then
    { s with opacity := 0.1 }
  else if time < e.time then
    if id = e.id1 ∨ id = e.id2 then
      { s with opacity := 1, color := BINARY_PARTICLE_COLOR }
    else { s with opacity := 1 }
  else if some id = rid then
    { s with opacity := 1, color := POST_EVENT_COLOR }
  else { s with opacity := 0.1 }

/-- Index of the first sampled time at or after et
(the timeKeys.findIndex(t => t >= et) call). -/
def findGeIdx (et : ℝ) : List ℝ → Option Nat
  | [] => none
  | t :: ts => if et ≤ t then some 0 else (findGeIdx et ts).map (· + 1)

/-- The pre-merger sampled time used by the post-merge branch: the source
takes timeKeys[kickIdx - 1] and then tests it for JS truthiness (the preT
conjunct), so a missing index, a findIndex miss (kickIdx = -1, making the
lookup undefined) and the value 0 all disable the branch. -/
def preMergeTimeKey (timeKeys : List ℝ) (et : ℝ) : Option ℝ :=
  match findGeIdx et timeKeys with
  | none => none
  | some 0 => none
  | some (k + 1) =>
      match timeKeys.get? k with
      | none => none
      | some t => if t = 0 then none else some t

/-- The kick vector the post-merge branch computes at line 215 of part_000:
remnant velocity minus the pre-merger pair centre-of-mass velocity.  The
source computes this value into the vKick constant and never uses it; the
arrow actually drawn is the raw remnant velocity. -/
def mergeKick (b1 b2 rd : BHRecord) : Vec3 := rd.vel - comVel b1 b2

/-- The pre-merge spin arrows (drawn only when spin display is on). -/
def preMergeSpinArrows (ssm : ℝ) (b1 b2 : BHRecord) (com : Vec3) : List Arrow :=
  let sdir := (Vec3.cross (b1.pos - b2.pos) (b1.vel - b2.vel)).normalize
  drawArrow (b1.pos - com) sdir
      (SPIN_VECTOR_SCALE * ssm * PSEUDO_SPIN_PARAMETER_A * b1.mass_msun * b1.mass_msun)
      SPIN_VECTOR_COLOR ++
    drawArrow (b2.pos - com) sdir
      (SPIN_VECTOR_SCALE * ssm * PSEUDO_SPIN_PARAMETER_A * b2.mass_msun * b2.mass_msun)
      SPIN_VECTOR_COLOR

/-- The post-merge spin arrow derived from the pre-merger relative angular
momentum, scaled by the remnant mass squared. -/
def mergeSpinArrow (ssm : ℝ) (b1 b2 rd : BHRecord) (com : Vec3) : List Arrow :=
  let h := Vec3.cross (b1.pos - b2.pos) (b1.vel - b2.vel)
  drawArrow (rd.pos - com) h.normalize
    (SPIN_VECTOR_SCALE * ssm * PSEUDO_SPIN_PARAMETER_A * rd.mass_msun * rd.mass_msun)
    MERGE_SPIN_COLOR

/-- handleMergeEvent of part_000: determine the remnant, recolour all
spheres, then draw the pre-merge visuals (orbit, centre-of-mass velocity,
optional spins) or the post-merge visuals (remnant velocity arrow and optional
merge-spin arrow, available only when the remnant and a truthy pre-merger
sampled time with both progenitor records exist). -/
def handleMergeEvent (env : Env) (e : InteractionEvent) (time : ℝ)
    (bhData : List BHRecord) (com : Vec3) (spheres : Int → Option Sphere) :
    HandlerOut :=
  let rid := mergeRemnant e bhData
  let spheres' := fun id => (spheres id).map (recolorMerge e rid time id)
  if time < e.time then
    ⟨spheres',
     (match findRec e.id1 bhData, findRec e.id2 bhData with
      | some b1, some b2 =>
          comVelArrow env.velScaleMultiplier e.id1 e.id2 bhData com ++
            (if env.showSpinVectors then
              preMergeSpinArrows env.spinScaleMultiplier b1 b2 com
            else [])
      | _, _ => []),
     drawOrbit e.id1 e.id2 bhData com PRE_EXCHANGE_ORBIT_COLOR⟩
  else
    ⟨spheres',
     (match rid with
      | none => []
      | some r =>
          match preMergeTimeKey env.timeKeys e.time with
          | none => []
          | some preT =>
              let preData := env.timeData preT
              (match findRec r bhData, findRec e.id1 preData, findRec e.id2 preData with
               | some rd, some b1, some b2 =>
                   drawArrow (rd.pos - com) rd.vel
                       (rd.vel.length * 20 * env.velScaleMultiplier) REMNANT_VEL_COLOR ++
                     (if env.showSpinVectors then
                       mergeSpinArrow env.spinScaleMultiplier b1 b2 rd com
                     else [])
               | _, _, _ => [])),
     []⟩

/-! Persistent sphere reconciliation (the prune / create-or-update loops of
updateBlackHoles and updateNS). -/

/-- Fields of a freshly created black-hole sphere before the per-frame
assignments: white physical material, opacity 1 (the bhData field is
immediately overwritten and the placeholder is irrelevant). -/
def newSphere (bh : BHRecord) : Sphere :=
  ⟨bh, 0, 0, FRESH_MATERIAL_COLOR, 1⟩

/-- Per-frame assignments on a (new or surviving) sphere: store the record in
userData, move it to the frame-shifted position and scale it by mass times the
size multiplier. -/
def setKinematics (bh : BHRecord) (com : Vec3) (psm : ℝ) (s : Sphere) : Sphere :=
  { s with bhData := bh, pos := bh.pos - com, scale := bh.mass_msun * psm }

/-- The reconciliation loop of updateBlackHoles: remove spheres whose id is
absent from the current records, then create-or-update a sphere per record. -/
def rebuildBh (spheres : Int → Option Sphere) (bhData : List BHRecord)
    (com : Vec3) (psm : ℝ) : Int → Option Sphere :=
  bhData.foldl
    (fun acc bh => fun id =>
      if id = bh.bh_id then
        some (setKinematics bh com psm ((acc id).getD (newSphere bh)))
      else acc id)
    (fun id => if (bhData.map (·.bh_id)).contains id then spheres id else none)

/-- Fields of a freshly created neutron-star sphere. -/
def newNSSphere (n : NSRecord) : NSSphere := ⟨n, 0, 0, true⟩

/-- Per-frame assignments on a neutron-star sphere, including the visibility
checkbox state. -/
def setNsKinematics (n : NSRecord) (com : Vec3) (psm : ℝ) (vis : Bool)
    (s : NSSphere) : NSSphere :=
  { s with nsData := n, pos := n.pos - com, scale := n.mass_msun * psm, visible := vis }

/-- updateNS of part_000: same prune / create-or-update reconciliation for
neutron stars. -/
def updateNS (env : Env) (t : ℝ) (com : Vec3)
    (nsObjects : Int → Option NSSphere) : Int → Option NSSphere :=
  let cur := env.nsData t
  cur.foldl
    (fun acc n => fun id =>
      if id = n.ns_id then
        some (setNsKinematics n com env.particleSizeMultiplier env.nsVisibleChecked
          ((acc id).getD (newNSSphere n)))
      else acc id)
    (fun id => if (cur.map (·.ns_id)).contains id then nsObjects id else none)

/-- Recolouring in the no-event branch: highlighted id gets the highlight
colour, a mass inside the configured range gets the mass-range colour,
otherwise the default colour; all at full opacity. -/
def recolorNoEvent (env : Env) (s : Sphere) : Sphere :=
  if env.highlightedBhId = some s.bhData.bh_id then
    { s with color := env.highlightColor, opacity := 1 }
  else
    match env.massFilterMin, env.massFilterMax with
    | some lo, some hi =>
        if lo ≤ s.bhData.mass_msun ∧ s.bhData.mass_msun ≤ hi then
          { s with color := env.massRangeColor, opacity := 1 }
        else { s with color := DEFAULT_COLOR, opacity := 1 }
    | _, _ => { s with color := DEFAULT_COLOR, opacity := 1 }

/-- The centre-of-mass frame offset: mass-weighted average position over all
current black holes and neutron stars (entries with falsy mass skipped, the
divide guarded by total mass positivity), or zero when the CoM frame is off. -/
def comOffset (env : Env) (time : ℝ) (bhData : List BHRecord) : Vec3 :=
  if env.useComFrame then
    let parts := bhData.map (fun b => (b.mass_msun, b.pos)) ++
      (env.nsData time).map (fun n => (n.mass_msun, n.pos))
    let ps := parts.filter (fun p => p.1 ≠ 0)
    let tm := (ps.map (·.1)).sum
    let csum := ps.foldl (fun acc p => acc + p.1 • p.2) (0 : Vec3)
    if 0 < tm then (1 / tm) • csum else csum
  else 0

/-- The camera target the tracking block computes: position of the highlighted
sphere if any (nothing to track when the highlighted id has no sphere), else
the mean position of the in-bounds actor spheres of the selected event. -/
def trackTarget (env : Env) (spheres : Int → Option Sphere) : Option Vec3 :=
  match env.highlightedBhId with
  | some hid => (spheres hid).map (·.pos)
  | none =>
      match env.selectedEvent with
      | some e =>
          let ids := if e.etype = EType.EXCHANGE then [e.id1, e.id2, e.id3, e.id4]
            else [e.id1, e.id2]
          let active := (ids.filterMap spheres).filter
            (fun o => o.pos.length < SIMULATION_BOUNDS)
          if active.length = 0 then none
          else some ((1 / (active.length : ℝ)) •
            (active.foldl (fun acc o => acc + o.pos) (0 : Vec3)))
      | none => none

/-- updateBlackHoles of part_000 (setTimeIndex as the spec calls it): guard
the index, write the UI fields, clear the previous transient visuals, compute
the frame offset, move the reference box, reconcile the spheres, run the
selected event handler or the default recolouring (with the highlighted
velocity arrow), update the camera target goal, update the neutron stars. -/
def updateBlackHoles (env : Env) (idx : Int) (s : VisState) : VisState :=
  if (env.timeKeys.length : Int) ≤ idx ∨ idx < 0 then s
  else
    let time := env.timeKeys.getD idx.toNat 0
    let bhData := env.timeData time
    let com := comOffset env time bhData
    let spheres1 := rebuildBh s.bhObjects bhData com env.particleSizeMultiplier
    let out : HandlerOut :=
      match env.selectedEvent with
      | some e =>
          if e.etype = EType.EXCHANGE then
            handleExchangeEvent env.velScaleMultiplier e time bhData com spheres1
          else handleMergeEvent env e time bhData com spheres1
      | none =>
          ⟨fun id => (spheres1 id).map (recolorNoEvent env),
           (match env.highlightedBhId with
            | some hid => drawVel env.velScaleMultiplier hid bhData com env.highlightColor 20
            | none => []),
           []⟩
    let goal :=
      if env.isCameraTracking ∧ env.xrPresenting = false then
        Vec3.lerp s.cameraTargetGoal ((trackTarget env out.spheres).getD 0) 0.1
      else s.cameraTargetGoal
    { bhObjects := out.spheres
      nsObjects := updateNS env time com s.nsObjects
      eventVectors := out.arrows
      ellipses := out.ellipses
      cubeFramePos := -com
      sliderValue := idx
      timeLabel := time
      cameraTargetGoal := goal }

/-! Orbit reconstruction of the VR variant of main.js
(drawIndividualOrbitsForPair) and the energy computations of the appended
older variant (drawEllipses), plus the reference definitions following the
words of the spec for the refinement claim. -/

/-- Reference definition following the spec, section 4.2 step 2: specific
orbital energy eps of a pair, eps equal to half the squared relative speed
minus mu over the separation, with mu the gravitational parameter G (m1 + m2). -/
def spec_eps (m1 m2 : ℝ) (r v : Vec3) : ℝ :=
  0.5 * v.lengthSq - G * (m1 + m2) / r.length

/-- Reference definition following the spec, section 4.2 step 3: semi-major
axis a equal to minus mu over twice the specific orbital energy. -/
def spec_semiMajor (m1 m2 : ℝ) (r v : Vec3) : ℝ :=
  -(G * (m1 + m2)) / (2 * spec_eps m1 m2 r v)

/-- Binary energy of the VR variant (main.js lines 576-577): half the reduced
mass times the squared relative speed minus G m1 m2 over the separation. -/
def E_binA (b1 b2 : BHRecord) : ℝ :=
  0.5 * (b1.mass_msun * b2.mass_msun / (b1.mass_msun + b2.mass_msun)) *
      (b1.vel - b2.vel).lengthSq -
    G * b1.mass_msun * b2.mass_msun / (b1.pos - b2.pos).length

/-- Binary energy of the older appended variant (main.js lines 1189-1191):
total lab-frame kinetic energy of the two bodies plus the potential energy. -/
def E_binB (b1 b2 : BHRecord) : ℝ :=
  0.5 * b1.mass_msun * b1.vel.lengthSq + 0.5 * b2.mass_msun * b2.vel.lengthSq -
    G * b1.mass_msun * b2.mass_msun / (b1.pos - b2.pos).length

/-- Relative-orbit semi-major axis of the older appended variant (main.js
line 1199): h squared over mu (1 - e squared), computed from its own relative
vectors r2 - r1 and v2 - v1. -/
def semiMajorB (b1 b2 : BHRecord) : ℝ :=
  let r_vec := b2.pos - b1.pos
  let v_vec := b2.vel - b1.vel
  let mu := G * (b1.mass_msun + b2.mass_msun)
  let h := Vec3.cross r_vec v_vec
  let e := (eccVec mu r_vec v_vec).length
  h.lengthSq / (mu * (1 - e * e))

/-- Orbit geometry produced by drawIndividualOrbitsForPair: relative-orbit
half-axes, eccentricity, centre of mass, angular momentum and eccentricity
vectors (the drawn pair of barycentric ellipses is a fixed function of these
together with the masses). -/
structure OrbitGeom where
  a_rel : ℝ
  b_rel : ℝ
  e : ℝ
  center_of_mass : Vec3
  hvec : Vec3
  evec : Vec3

/-- drawIndividualOrbitsForPair of the VR variant of main.js (lines 561-630),
reduced to the two input records: zero separation, nonnegative binary energy,
eccentricity at least one, or non-positive half-axes all yield no geometry.
The isFinite(a_rel) and isFinite(b_rel) conjuncts of the source guard hold
identically over the reals. -/
def drawIndividualOrbitsForPair (bh1 bh2 : BHRecord) : Option OrbitGeom :=
  let m1 := bh1.mass_msun
  let m2 := bh2.mass_msun
  let M := m1 + m2
  let r_rel := bh1.pos - bh2.pos
  if r_rel.length = 0 then none
  else
    let v_rel := bh1.vel - bh2.vel
    if E_binA bh1 bh2 < 0 then
      let ev := eccVec (G * M) r_rel v_rel
      let e := ev.length
      if e < 1 then
        let a := -(G * m1 * m2) / (2 * E_binA bh1 bh2)
        let b := a * Real.sqrt (1 - e * e)
        if 0 < a ∧ 0 < b then
          some ⟨a, b, e, comPos bh1 bh2, Vec3.cross r_rel v_rel, ev⟩
        else none
      else none
    else none

/-! Vector-algebra lemmas for the eccentricity identity. -/

lemma lengthSq_sub_swap (a b : Vec3) :
    Vec3.lengthSq (a - b) = Vec3.lengthSq (b - a) := by
  simp only [Vec3.lengthSq, Vec3.dot, Vec3.sub_x, Vec3.sub_y, Vec3.sub_z]
  ring

lemma length_sub_swap (a b : Vec3) :
    Vec3.length (a - b) = Vec3.length (b - a) := by
  simp only [Vec3.length, lengthSq_sub_swap]

lemma cross_sub_swap (a b c d : Vec3) :
    Vec3.cross (b - a) (d - c) = Vec3.cross (a - b) (c - d) := by
  simp only [Vec3.cross, Vec3.sub_x, Vec3.sub_y, Vec3.sub_z]
  ext <;> ring

/-- Squared length of the eccentricity vector: the classical identity
e^2 = 1 + 2 eps h^2 / mu^2 with eps the specific orbital energy. -/
lemma eccVec_lengthSq (mu : ℝ) (r v : Vec3) (hr : r ≠ 0) (hmu : mu ≠ 0) :
    Vec3.dot (eccVec mu r v) (eccVec mu r v) =
      1 + 2 * (0.5 * v.lengthSq - mu / r.length) *
        (Vec3.cross r v).lengthSq / (mu * mu) := by
  have hlr : r.length ≠ 0 := fun h0 => hr (Vec3.length_eq_zero.mp h0)
  have hlr2 : r.length * r.length = Vec3.dot r r := Vec3.sq_length r
  have hcyc : Vec3.dot (Vec3.cross v (Vec3.cross r v)) r =
      Vec3.dot (Vec3.cross r v) (Vec3.cross r v) := by
    simp only [Vec3.dot, Vec3.cross]; ring
  have hcyc2 : Vec3.dot r (Vec3.cross v (Vec3.cross r v)) =
      Vec3.dot (Vec3.cross r v) (Vec3.cross r v) := by
    simp only [Vec3.dot, Vec3.cross]; ring
  have hlag : Vec3.dot (Vec3.cross v (Vec3.cross r v)) (Vec3.cross v (Vec3.cross r v)) =
      Vec3.dot v v * Vec3.dot (Vec3.cross r v) (Vec3.cross r v) := by
    simp only [Vec3.dot, Vec3.cross]; ring
  simp only [eccVec, Vec3.normalize, Vec3.lengthSq, Vec3.dot_sub_left, Vec3.dot_sub_right,
    Vec3.dot_smul_left, Vec3.dot_smul_right]
  rw [hlag, hcyc, hcyc2, ← hlr2]
  field_simp
  ring

lemma lengthSq_neg (a : Vec3) : Vec3.lengthSq (-a) = Vec3.lengthSq a := by
  simp only [Vec3.lengthSq, Vec3.dot, Vec3.neg_x, Vec3.neg_y, Vec3.neg_z]
  ring

lemma length_neg (a : Vec3) : Vec3.length (-a) = Vec3.length a := by
  simp only [Vec3.length, lengthSq_neg]

lemma normalize_neg (a : Vec3) : Vec3.normalize (-a) = -(Vec3.normalize a) := by
  simp only [Vec3.normalize, length_neg]
  ext <;> simp

lemma cross_neg_neg (a b : Vec3) : Vec3.cross (-a) (-b) = Vec3.cross a b := by
  simp only [Vec3.cross, Vec3.neg_x, Vec3.neg_y, Vec3.neg_z]
  ext <;> ring

lemma cross_neg_left (a b : Vec3) : Vec3.cross (-a) b = -(Vec3.cross a b) := by
  simp only [Vec3.cross, Vec3.neg_x, Vec3.neg_y, Vec3.neg_z]
  ext <;> simp
  all_goals ring

/-- The eccentricity vector of the sign-reversed relative state is the
negated eccentricity vector. -/
lemma eccVec_neg (mu : ℝ) (r v : Vec3) :
    eccVec mu (-r) (-v) = -(eccVec mu r v) := by
  unfold eccVec
  rw [cross_neg_neg, normalize_neg, cross_neg_left]
  ext <;> simp
  all_goals ring

lemma sub_swap_eq_neg (a b : Vec3) : b - a = -(a - b) := by
  ext <;> simp

/-- The specific orbital energy is invariant under the sign of the relative
vectors. -/
lemma spec_eps_swap (m1 m2 : ℝ) (r v : Vec3) :
    spec_eps m1 m2 (-r) (-v) = spec_eps m1 m2 r v := by
  simp only [spec_eps, lengthSq_neg, length_neg]

/-- The binary energy of the VR variant is the reduced mass times the
specific orbital energy of the spec. -/
lemma E_binA_eq (b1 b2 : BHRecord) (hM : b1.mass_msun + b2.mass_msun ≠ 0) :
    E_binA b1 b2 = (b1.mass_msun * b2.mass_msun / (b1.mass_msun + b2.mass_msun)) *
      spec_eps b1.mass_msun b2.mass_msun (b1.pos - b2.pos) (b1.vel - b2.vel) := by
  unfold E_binA spec_eps
  rcases eq_or_ne (Vec3.length (b1.pos - b2.pos)) 0 with h | h
  · rw [h]
    simp only [div_zero]
    ring
  · field_simp
    ring

/-- The bound decision of the VR variant is equivalent to the criterion of
the spec, for positive masses. -/
lemma E_binA_neg_iff (b1 b2 : BHRecord)
    (hm1 : 0 < b1.mass_msun) (hm2 : 0 < b2.mass_msun) :
    (E_binA b1 b2 < 0 ↔
      spec_eps b1.mass_msun b2.mass_msun (b1.pos - b2.pos) (b1.vel - b2.vel) < 0) := by
  have hM : 0 < b1.mass_msun + b2.mass_msun := by linarith
  have hred : 0 < b1.mass_msun * b2.mass_msun / (b1.mass_msun + b2.mass_msun) := by positivity
  rw [E_binA_eq b1 b2 hM.ne', mul_neg_iff]
  constructor
  · rintro (⟨_, h⟩ | ⟨h, _⟩)
    · exact h
    · linarith
  · intro h
    exact Or.inl ⟨hred, h⟩

/-- The semi-major axis formula of the VR variant agrees with the one of the
spec on bound pairs with positive masses. -/
lemma a_A_eq (b1 b2 : BHRecord)
    (hm1 : 0 < b1.mass_msun) (hm2 : 0 < b2.mass_msun)
    (heps : spec_eps b1.mass_msun b2.mass_msun (b1.pos - b2.pos) (b1.vel - b2.vel) < 0) :
    -(G * b1.mass_msun * b2.mass_msun) / (2 * E_binA b1 b2) =
      spec_semiMajor b1.mass_msun b2.mass_msun (b1.pos - b2.pos) (b1.vel - b2.vel) := by
  have hM : 0 < b1.mass_msun + b2.mass_msun := by linarith
  have heps' : spec_eps b1.mass_msun b2.mass_msun (b1.pos - b2.pos) (b1.vel - b2.vel) ≠ 0 :=
    ne_of_lt heps
  rw [E_binA_eq b1 b2 hM.ne', spec_semiMajor]
  field_simp
  ring

/-- With vanishing pair centre-of-mass velocity, the lab-frame binary energy
of the older variant coincides with the relative-frame one of the VR variant. -/
lemma E_binB_eq_A (b1 b2 : BHRecord) (hM : b1.mass_msun + b2.mass_msun ≠ 0)
    (hcom : comVel b1 b2 = 0) : E_binB b1 b2 = E_binA b1 b2 := by
  have hM' : (1 : ℝ) / (b1.mass_msun + b2.mass_msun) ≠ 0 := one_div_ne_zero hM
  have hx : b1.mass_msun * b1.vx + b2.mass_msun * b2.vx = 0 := by
    have h := congrArg Vec3.x hcom
    simp only [comVel, BHRecord.vel, Vec3.smul_x, Vec3.add_x, Vec3.zero_x] at h
    rcases mul_eq_zero.mp h with h0 | h0
    · exact absurd h0 hM'
    · exact h0
  have hy : b1.mass_msun * b1.vy + b2.mass_msun * b2.vy = 0 := by
    have h := congrArg Vec3.y hcom
    simp only [comVel, BHRecord.vel, Vec3.smul_y, Vec3.add_y, Vec3.zero_y] at h
    rcases mul_eq_zero.mp h with h0 | h0
    · exact absurd h0 hM'
    · exact h0
  have hz : b1.mass_msun * b1.vz + b2.mass_msun * b2.vz = 0 := by
    have h := congrArg Vec3.z hcom
    simp only [comVel, BHRecord.vel, Vec3.smul_z, Vec3.add_z, Vec3.zero_z] at h
    rcases mul_eq_zero.mp h with h0 | h0
    · exact absurd h0 hM'
    · exact h0
  have key : 0.5 * b1.mass_msun * Vec3.lengthSq b1.vel +
      0.5 * b2.mass_msun * Vec3.lengthSq b2.vel =
      0.5 * (b1.mass_msun * b2.mass_msun / (b1.mass_msun + b2.mass_msun)) *
        Vec3.lengthSq (b1.vel - b2.vel) := by
    simp only [Vec3.lengthSq, Vec3.dot, BHRecord.vel, Vec3.sub_x, Vec3.sub_y, Vec3.sub_z]
    field_simp
    linear_combination ((1 : ℝ) / 2 * (b1.mass_msun * b1.vx + b2.mass_msun * b2.vx)) * hx +
      ((1 : ℝ) / 2 * (b1.mass_msun * b1.vy + b2.mass_msun * b2.vy)) * hy +
      ((1 : ℝ) / 2 * (b1.mass_msun * b1.vz + b2.mass_msun * b2.vz)) * hz
  unfold E_binB E_binA
  linarith [key]

@[simp] lemma length_zero : Vec3.length 0 = 0 := by
  simp only [Vec3.length, Vec3.lengthSq, Vec3.dot, Vec3.zero_x, Vec3.zero_y, Vec3.zero_z]
  rw [show (0 : ℝ) * 0 + 0 * 0 + 0 * 0 = 0 by ring]
  exact Real.sqrt_zero

/-- The h-squared semi-major axis formula of the older variant agrees with
the one of the spec on bound pairs with eccentricity below one. -/
lemma semiMajorB_eq (b1 b2 : BHRecord)
    (hm1 : 0 < b1.mass_msun) (hm2 : 0 < b2.mass_msun)
    (hr : b1.pos - b2.pos ≠ 0)
    (heps : spec_eps b1.mass_msun b2.mass_msun (b1.pos - b2.pos) (b1.vel - b2.vel) < 0)
    (hecc : (eccVec (G * (b1.mass_msun + b2.mass_msun)) (b1.pos - b2.pos)
      (b1.vel - b2.vel)).length < 1) :
    semiMajorB b1 b2 =
      spec_semiMajor b1.mass_msun b2.mass_msun (b1.pos - b2.pos) (b1.vel - b2.vel) := by
  have hM : 0 < b1.mass_msun + b2.mass_msun := by linarith
  have hmu : (0 : ℝ) < G * (b1.mass_msun + b2.mass_msun) := mul_pos G_pos hM
  have hrv : b2.pos - b1.pos = -(b1.pos - b2.pos) := sub_swap_eq_neg _ _
  have hvv : b2.vel - b1.vel = -(b1.vel - b2.vel) := sub_swap_eq_neg _ _
  have he0 : 0 ≤ (eccVec (G * (b1.mass_msun + b2.mass_msun)) (b1.pos - b2.pos)
      (b1.vel - b2.vel)).length := Vec3.length_nonneg _
  have hid : (eccVec (G * (b1.mass_msun + b2.mass_msun)) (b1.pos - b2.pos)
        (b1.vel - b2.vel)).length *
      (eccVec (G * (b1.mass_msun + b2.mass_msun)) (b1.pos - b2.pos)
        (b1.vel - b2.vel)).length =
      1 + 2 * spec_eps b1.mass_msun b2.mass_msun (b1.pos - b2.pos) (b1.vel - b2.vel) *
        (Vec3.cross (b1.pos - b2.pos) (b1.vel - b2.vel)).lengthSq /
        (G * (b1.mass_msun + b2.mass_msun) * (G * (b1.mass_msun + b2.mass_msun))) := by
    rw [Vec3.sq_length]
    unfold spec_eps
    exact eccVec_lengthSq _ _ _ hr (ne_of_gt hmu)
  have hh2 : (Vec3.cross (b1.pos - b2.pos) (b1.vel - b2.vel)).lengthSq ≠ 0 := by
    intro h0
    rw [h0] at hid
    rw [mul_zero, zero_div, add_zero] at hid
    nlinarith [hid, hecc, he0]
  have hepsne : spec_eps b1.mass_msun b2.mass_msun (b1.pos - b2.pos) (b1.vel - b2.vel) ≠ 0 :=
    ne_of_lt heps
  have hmune : G * (b1.mass_msun + b2.mass_msun) ≠ 0 := ne_of_gt hmu
  simp only [semiMajorB]
  rw [hrv, hvv, cross_neg_neg, eccVec_neg, length_neg]
  have hsub : 1 - (eccVec (G * (b1.mass_msun + b2.mass_msun)) (b1.pos - b2.pos)
        (b1.vel - b2.vel)).length *
      (eccVec (G * (b1.mass_msun + b2.mass_msun)) (b1.pos - b2.pos)
        (b1.vel - b2.vel)).length =
      -(2 * spec_eps b1.mass_msun b2.mass_msun (b1.pos - b2.pos) (b1.vel - b2.vel) *
        (Vec3.cross (b1.pos - b2.pos) (b1.vel - b2.vel)).lengthSq /
        (G * (b1.mass_msun + b2.mass_msun) * (G * (b1.mass_msun + b2.mass_msun)))) := by
    rw [hid]; ring
  rw [hsub, spec_semiMajor]
  field_simp
  ring

/-- C3 counterexample: the part_000 reconstructor does not suppress a
zero-separation pair.  Two unit-mass records at the same position with zero
velocities have zero relative separation, yet drawOrbit produces geometry -
two degenerate ellipses whose half-axes are both zero - contradicting both
the no-geometry-at-zero-separation clause and the strictly-positive-half-axes
clause of the claim for this reconstructor: in the source the binary energy
evaluates to negative infinity and passes the bound test, and the three.js
normalize of the zero vector is the zero vector, so e = 0 passes the
eccentricity test. -/
theorem C3_counterexample :
    ((⟨1, 1, 0, 0, 0, 0, 0, 0⟩ : BHRecord).pos -
        (⟨2, 1, 0, 0, 0, 0, 0, 0⟩ : BHRecord).pos = 0) ∧
    drawOrbit 1 2 [(⟨1, 1, 0, 0, 0, 0, 0, 0⟩ : BHRecord), ⟨2, 1, 0, 0, 0, 0, 0, 0⟩] 0 0 ≠ [] ∧
    ∀ ell ∈ drawOrbit 1 2 [(⟨1, 1, 0, 0, 0, 0, 0, 0⟩ : BHRecord), ⟨2, 1, 0, 0, 0, 0, 0, 0⟩] 0 0,
      ell.a = 0 ∧ ell.b = 0 := by
  have hf1 : findRec 1 [(⟨1, 1, 0, 0, 0, 0, 0, 0⟩ : BHRecord), ⟨2, 1, 0, 0, 0, 0, 0, 0⟩] =
      some ⟨1, 1, 0, 0, 0, 0, 0, 0⟩ := rfl
  have hf2 : findRec 2 [(⟨1, 1, 0, 0, 0, 0, 0, 0⟩ : BHRecord), ⟨2, 1, 0, 0, 0, 0, 0, 0⟩] =
      some ⟨2, 1, 0, 0, 0, 0, 0, 0⟩ := rfl
  have hsub : (⟨1, 1, 0, 0, 0, 0, 0, 0⟩ : BHRecord).pos -
      (⟨2, 1, 0, 0, 0, 0, 0, 0⟩ : BHRecord).pos = 0 := by
    ext <;> simp [BHRecord.pos]
  have hlen : ((⟨1, 1, 0, 0, 0, 0, 0, 0⟩ : BHRecord).pos -
      (⟨2, 1, 0, 0, 0, 0, 0, 0⟩ : BHRecord).pos).length = 0 := by
    rw [hsub]; exact length_zero
  have hdraw : drawOrbit 1 2
      [(⟨1, 1, 0, 0, 0, 0, 0, 0⟩ : BHRecord), ⟨2, 1, 0, 0, 0, 0, 0, 0⟩] 0 0 =
      [⟨1, 2, 0, 0, 0, 0, comPos ⟨1, 1, 0, 0, 0, 0, 0, 0⟩ ⟨2, 1, 0, 0, 0, 0, 0, 0⟩ - 0,
          Vec3.cross ((⟨1, 1, 0, 0, 0, 0, 0, 0⟩ : BHRecord).pos -
              (⟨2, 1, 0, 0, 0, 0, 0, 0⟩ : BHRecord).pos)
            ((⟨1, 1, 0, 0, 0, 0, 0, 0⟩ : BHRecord).vel -
              (⟨2, 1, 0, 0, 0, 0, 0, 0⟩ : BHRecord).vel), 0, 0⟩,
       ⟨1, 2, 1, 0, 0, 0, comPos ⟨1, 1, 0, 0, 0, 0, 0, 0⟩ ⟨2, 1, 0, 0, 0, 0, 0, 0⟩ - 0,
          Vec3.cross ((⟨1, 1, 0, 0, 0, 0, 0, 0⟩ : BHRecord).pos -
              (⟨2, 1, 0, 0, 0, 0, 0, 0⟩ : BHRecord).pos)
            ((⟨1, 1, 0, 0, 0, 0, 0, 0⟩ : BHRecord).vel -
              (⟨2, 1, 0, 0, 0, 0, 0, 0⟩ : BHRecord).vel), 0, 0⟩] := by
    simp only [drawOrbit, hf1, hf2]
    rw [if_pos hlen]
    split_ifs with hM
    · rfl
    · exfalso; apply hM; norm_num
  refine ⟨hsub, ?_, ?_⟩
  · rw [hdraw]; simp
  · rw [hdraw]
    intro ell hmem
    simp only [List.mem_cons, List.mem_singleton, List.not_mem_nil, or_false] at hmem
    rcases hmem with h | h <;> subst h <;> exact ⟨rfl, rfl⟩

/-- C3 amended: in the drawIndividualOrbitsForPair reconstructor of the
main.js VR variant, nonnegative specific orbital energy, eccentricity at
least one and zero relative separation each produce no orbit geometry, and
any produced half-axes are strictly positive (finiteness is intrinsic to the
real embedding).  In the drawOrbit reconstructor of part_000 the energy and
eccentricity guards likewise produce no geometry - for the energy guard under
nonzero separation, where the real-valued criterion is meaningful - and every
ellipse produced from a pair with nonzero separation has strictly positive
half-axes; a zero-separation pair, however, is not suppressed there but drawn
as two degenerate ellipses with both half-axes zero. -/
theorem C3_amended_orbit_guards
    (b1 b2 : BHRecord) (hm1 : 0 < b1.mass_msun) (hm2 : 0 < b2.mass_msun)
    (data : List BHRecord) (i1 i2 : Int) (com : Vec3) (col : Nat)
    (h1 : findRec i1 data = some b1) (h2 : findRec i2 data = some b2) :
    (0 ≤ spec_eps b1.mass_msun b2.mass_msun (b1.pos - b2.pos) (b1.vel - b2.vel) →
      drawIndividualOrbitsForPair b1 b2 = none ∧
        (b1.pos - b2.pos ≠ 0 → drawOrbit i1 i2 data com col = [])) ∧
    (1 ≤ (eccVec (G * (b1.mass_msun + b2.mass_msun)) (b1.pos - b2.pos)
        (b1.vel - b2.vel)).length →
      drawIndividualOrbitsForPair b1 b2 = none ∧ drawOrbit i1 i2 data com col = []) ∧
    (b1.pos - b2.pos = 0 →
      drawIndividualOrbitsForPair b1 b2 = none ∧
        drawOrbit i1 i2 data com col =
          [⟨i1, i2, 0, 0, 0, 0, comPos b1 b2 - com,
              Vec3.cross (b1.pos - b2.pos) (b1.vel - b2.vel), 0, col⟩,
           ⟨i1, i2, 1, 0, 0, 0, comPos b1 b2 - com,
              Vec3.cross (b1.pos - b2.pos) (b1.vel - b2.vel), 0, col⟩]) ∧
    (∀ g, drawIndividualOrbitsForPair b1 b2 = some g → 0 < g.a_rel ∧ 0 < g.b_rel) ∧
    (b1.pos - b2.pos ≠ 0 →
      ∀ ell ∈ drawOrbit i1 i2 data com col, 0 < ell.a ∧ 0 < ell.b) := by
  have hM : 0 < b1.mass_msun + b2.mass_msun := by linarith
  refine ⟨?_, ?_, ?_, ?_, ?_⟩
  · intro h
    have hEA : ¬ E_binA b1 b2 < 0 := by
      rw [E_binA_neg_iff b1 b2 hm1 hm2]; linarith
    constructor
    · simp only [drawIndividualOrbitsForPair]
      split_ifs with hA hB hC hD <;> first | rfl | exact absurd hB hEA
    · intro hr0
      have hlen : (b1.pos - b2.pos).length ≠ 0 := fun hh => hr0 (Vec3.length_eq_zero.mp hh)
      simp only [drawOrbit, h1, h2]
      rw [if_neg hlen]
      split_ifs with hEn hEcc <;>
        first
        | rfl
        | (exfalso; unfold spec_eps at h; linarith)
  · intro h
    have hr0 : b1.pos - b2.pos ≠ 0 := by
      intro h0
      have hev0 : eccVec (G * (b1.mass_msun + b2.mass_msun)) 0 (b1.vel - b2.vel) = 0 := by
        ext <;> simp [eccVec, Vec3.normalize, Vec3.cross]
      rw [h0, hev0, length_zero] at h
      linarith
    have hlen : (b1.pos - b2.pos).length ≠ 0 := fun hh => hr0 (Vec3.length_eq_zero.mp hh)
    constructor
    · simp only [drawIndividualOrbitsForPair]
      split_ifs with hA hB hC hD <;> first | rfl | linarith
    · simp only [drawOrbit, h1, h2]
      rw [if_neg hlen]
      split_ifs with hEn hEcc <;> first | rfl | linarith
  · intro h0
    have hlen : (b1.pos - b2.pos).length = 0 := by rw [h0]; exact length_zero
    constructor
    · simp only [drawIndividualOrbitsForPair]
      rw [if_pos hlen]
    · simp only [drawOrbit, h1, h2]
      rw [if_pos hlen, if_pos hM]
  · intro g hg
    simp only [drawIndividualOrbitsForPair] at hg
    split_ifs at hg with hA hB hC hD <;>
      first
      | (rw [Option.some_inj] at hg; subst hg; exact ⟨hD.1, hD.2⟩)
      | simp at hg
  · intro hr0 ell hmem
    have hlen : (b1.pos - b2.pos).length ≠ 0 := fun hh => hr0 (Vec3.length_eq_zero.mp hh)
    simp only [drawOrbit, h1, h2] at hmem
    rw [if_neg hlen] at hmem
    split_ifs at hmem with hEn hEcc
    · have hnum : -(G * (b1.mass_msun + b2.mass_msun)) < 0 := by
        have := mul_pos G_pos hM
        linarith
      have hden : 2 * (0.5 * Vec3.lengthSq (b1.vel - b2.vel) -
          G * (b1.mass_msun + b2.mass_msun) / (b1.pos - b2.pos).length) < 0 := by
        linarith
      have ha : 0 < -(G * (b1.mass_msun + b2.mass_msun)) /
          (2 * (0.5 * Vec3.lengthSq (b1.vel - b2.vel) -
            G * (b1.mass_msun + b2.mass_msun) / (b1.pos - b2.pos).length)) :=
        div_pos_of_neg_of_neg hnum hden
      have he0 : 0 ≤ (eccVec (G * (b1.mass_msun + b2.mass_msun)) (b1.pos - b2.pos)
          (b1.vel - b2.vel)).length := Vec3.length_nonneg _
      have h1e : 0 < 1 - (eccVec (G * (b1.mass_msun + b2.mass_msun)) (b1.pos - b2.pos)
            (b1.vel - b2.vel)).length *
          (eccVec (G * (b1.mass_msun + b2.mass_msun)) (b1.pos - b2.pos)
            (b1.vel - b2.vel)).length := by
        nlinarith [hEcc, he0]
      have hb : 0 < -(G * (b1.mass_msun + b2.mass_msun)) /
          (2 * (0.5 * Vec3.lengthSq (b1.vel - b2.vel) -
            G * (b1.mass_msun + b2.mass_msun) / (b1.pos - b2.pos).length)) *
          Real.sqrt (1 - (eccVec (G * (b1.mass_msun + b2.mass_msun)) (b1.pos - b2.pos)
            (b1.vel - b2.vel)).length *
          (eccVec (G * (b1.mass_msun + b2.mass_msun)) (b1.pos - b2.pos)
            (b1.vel - b2.vel)).length) :=
        mul_pos ha (Real.sqrt_pos.mpr h1e)
      have hs1 : 0 < b2.mass_msun / (b1.mass_msun + b2.mass_msun) := div_pos hm2 hM
      have hs2 : 0 < b1.mass_msun / (b1.mass_msun + b2.mass_msun) := div_pos hm1 hM
      simp only [List.mem_cons, List.mem_singleton, List.not_mem_nil, or_false] at hmem
      rcases hmem with h | h <;> subst h
      · exact ⟨mul_pos ha hs1, mul_pos hb hs1⟩
      · exact ⟨mul_pos ha hs2, mul_pos hb hs2⟩
    · exact absurd hmem (List.not_mem_nil ell)
    · exact absurd hmem (List.not_mem_nil ell)

/-- C3 amended witness: the guards evaluated on a concrete two-record pair
with unit separation. -/
theorem C3_amended_orbit_guards_witness :
    (0 : ℝ) < (⟨1, 1, 0, 0, 0, 0, 0, 0⟩ : BHRecord).mass_msun ∧
    (0 : ℝ) < (⟨2, 1, 1, 0, 0, 0, 0, 0⟩ : BHRecord).mass_msun ∧
    findRec 1 [(⟨1, 1, 0, 0, 0, 0, 0, 0⟩ : BHRecord), ⟨2, 1, 1, 0, 0, 0, 0, 0⟩] =
      some ⟨1, 1, 0, 0, 0, 0, 0, 0⟩ ∧
    ((0 ≤ spec_eps (⟨1, 1, 0, 0, 0, 0, 0, 0⟩ : BHRecord).mass_msun
        (⟨2, 1, 1, 0, 0, 0, 0, 0⟩ : BHRecord).mass_msun
        ((⟨1, 1, 0, 0, 0, 0, 0, 0⟩ : BHRecord).pos - (⟨2, 1, 1, 0, 0, 0, 0, 0⟩ : BHRecord).pos)
        ((⟨1, 1, 0, 0, 0, 0, 0, 0⟩ : BHRecord).vel - (⟨2, 1, 1, 0, 0, 0, 0, 0⟩ : BHRecord).vel) →
      drawIndividualOrbitsForPair ⟨1, 1, 0, 0, 0, 0, 0, 0⟩ ⟨2, 1, 1, 0, 0, 0, 0, 0⟩ = none ∧
        ((⟨1, 1, 0, 0, 0, 0, 0, 0⟩ : BHRecord).pos -
            (⟨2, 1, 1, 0, 0, 0, 0, 0⟩ : BHRecord).pos ≠ 0 →
          drawOrbit 1 2 [(⟨1, 1, 0, 0, 0, 0, 0, 0⟩ : BHRecord), ⟨2, 1, 1, 0, 0, 0, 0, 0⟩] 0 0 =
            [])) ∧
    (1 ≤ (eccVec (G * ((⟨1, 1, 0, 0, 0, 0, 0, 0⟩ : BHRecord).mass_msun +
          (⟨2, 1, 1, 0, 0, 0, 0, 0⟩ : BHRecord).mass_msun))
        ((⟨1, 1, 0, 0, 0, 0, 0, 0⟩ : BHRecord).pos - (⟨2, 1, 1, 0, 0, 0, 0, 0⟩ : BHRecord).pos)
        ((⟨1, 1, 0, 0, 0, 0, 0, 0⟩ : BHRecord).vel -
          (⟨2, 1, 1, 0, 0, 0, 0, 0⟩ : BHRecord).vel)).length →
      drawIndividualOrbitsForPair ⟨1, 1, 0, 0, 0, 0, 0, 0⟩ ⟨2, 1, 1, 0, 0, 0, 0, 0⟩ = none ∧
        drawOrbit 1 2 [(⟨1, 1, 0, 0, 0, 0, 0, 0⟩ : BHRecord), ⟨2, 1, 1, 0, 0, 0, 0, 0⟩] 0 0 = []) ∧
    ((⟨1, 1, 0, 0, 0, 0, 0, 0⟩ : BHRecord).pos - (⟨2, 1, 1, 0, 0, 0, 0, 0⟩ : BHRecord).pos = 0 →
      drawIndividualOrbitsForPair ⟨1, 1, 0, 0, 0, 0, 0, 0⟩ ⟨2, 1, 1, 0, 0, 0, 0, 0⟩ = none ∧
        drawOrbit 1 2 [(⟨1, 1, 0, 0, 0, 0, 0, 0⟩ : BHRecord), ⟨2, 1, 1, 0, 0, 0, 0, 0⟩] 0 0 =
          [⟨1, 2, 0, 0, 0, 0, comPos ⟨1, 1, 0, 0, 0, 0, 0, 0⟩ ⟨2, 1, 1, 0, 0, 0, 0, 0⟩ - 0,
              Vec3.cross ((⟨1, 1, 0, 0, 0, 0, 0, 0⟩ : BHRecord).pos -
                  (⟨2, 1, 1, 0, 0, 0, 0, 0⟩ : BHRecord).pos)
                ((⟨1, 1, 0, 0, 0, 0, 0, 0⟩ : BHRecord).vel -
                  (⟨2, 1, 1, 0, 0, 0, 0, 0⟩ : BHRecord).vel), 0, 0⟩,
           ⟨1, 2, 1, 0, 0, 0, comPos ⟨1, 1, 0, 0, 0, 0, 0, 0⟩ ⟨2, 1, 1, 0, 0, 0, 0, 0⟩ - 0,
              Vec3.cross ((⟨1, 1, 0, 0, 0, 0, 0, 0⟩ : BHRecord).pos -
                  (⟨2, 1, 1, 0, 0, 0, 0, 0⟩ : BHRecord).pos)
                ((⟨1, 1, 0, 0, 0, 0, 0, 0⟩ : BHRecord).vel -
                  (⟨2, 1, 1, 0, 0, 0, 0, 0⟩ : BHRecord).vel), 0, 0⟩]) ∧
    (∀ g, drawIndividualOrbitsForPair ⟨1, 1, 0, 0, 0, 0, 0, 0⟩ ⟨2, 1, 1, 0, 0, 0, 0, 0⟩ = some g →
      0 < g.a_rel ∧ 0 < g.b_rel) ∧
    ((⟨1, 1, 0, 0, 0, 0, 0, 0⟩ : BHRecord).pos - (⟨2, 1, 1, 0, 0, 0, 0, 0⟩ : BHRecord).pos ≠ 0 →
      ∀ ell ∈ drawOrbit 1 2 [(⟨1, 1, 0, 0, 0, 0, 0, 0⟩ : BHRecord), ⟨2, 1, 1, 0, 0, 0, 0, 0⟩] 0 0,
        0 < ell.a ∧ 0 < ell.b)) :=
  ⟨by show (0 : ℝ) < 1; norm_num,
   by show (0 : ℝ) < 1; norm_num,
   rfl,
   C3_amended_orbit_guards ⟨1, 1, 0, 0, 0, 0, 0, 0⟩ ⟨2, 1, 1, 0, 0, 0, 0, 0⟩
     (by show (0 : ℝ) < 1; norm_num) (by show (0 : ℝ) < 1; norm_num)
     [⟨1, 1, 0, 0, 0, 0, 0, 0⟩, ⟨2, 1, 1, 0, 0, 0, 0, 0⟩] 1 2 0 0 rfl rfl⟩

/-- C4 counterexample: the bound decision of the older appended variant
(E_kin + E_pot with lab-frame kinetic energy, drawEllipses of main.js) is not
equivalent to the criterion eps < 0 of the spec.  Two equal-mass bodies at
unit separation moving with a common large velocity have eps < 0 (bound: the
relative velocity vanishes) while that variant computes a positive energy and
treats the pair as unbound. -/
theorem C4_counterexample :
    spec_eps (⟨1, 1, 0, 0, 0, 10, 0, 0⟩ : BHRecord).mass_msun
        (⟨2, 1, 1, 0, 0, 10, 0, 0⟩ : BHRecord).mass_msun
        ((⟨1, 1, 0, 0, 0, 10, 0, 0⟩ : BHRecord).pos - (⟨2, 1, 1, 0, 0, 10, 0, 0⟩ : BHRecord).pos)
        ((⟨1, 1, 0, 0, 0, 10, 0, 0⟩ : BHRecord).vel -
          (⟨2, 1, 1, 0, 0, 10, 0, 0⟩ : BHRecord).vel) < 0 ∧
    ¬ E_binB ⟨1, 1, 0, 0, 0, 10, 0, 0⟩ ⟨2, 1, 1, 0, 0, 10, 0, 0⟩ < 0 := by
  have hp : (⟨1, 1, 0, 0, 0, 10, 0, 0⟩ : BHRecord).pos -
      (⟨2, 1, 1, 0, 0, 10, 0, 0⟩ : BHRecord).pos = ⟨-1, 0, 0⟩ := by
    ext <;> simp [BHRecord.pos] <;> norm_num
  have hv : (⟨1, 1, 0, 0, 0, 10, 0, 0⟩ : BHRecord).vel -
      (⟨2, 1, 1, 0, 0, 10, 0, 0⟩ : BHRecord).vel = ⟨0, 0, 0⟩ := by
    ext <;> simp [BHRecord.vel]
  have hlen : Vec3.length ⟨-1, 0, 0⟩ = 1 := by
    simp only [Vec3.length, Vec3.lengthSq, Vec3.dot]
    rw [show (-1 : ℝ) * (-1) + 0 * 0 + 0 * 0 = 1 by norm_num]
    exact Real.sqrt_one
  constructor
  · rw [hp, hv]
    simp only [spec_eps, Vec3.lengthSq, Vec3.dot, hlen]
    norm_num [G]
  · simp only [E_binB, hp, hlen, Vec3.lengthSq, Vec3.dot, BHRecord.vel]
    norm_num [G]

/-- C4 amended: the bound decision of the VR variant is equivalent to the
criterion eps < 0 of the spec and the semi-major axis of every geometry it
produces equals -mu/(2 eps); the older appended variant agrees with the spec
criterion only when the pair centre-of-mass velocity vanishes (in general its
lab-frame energy adds the centre-of-mass kinetic term, see the
counterexample), and its h-squared semi-major axis formula agrees with
-mu/(2 eps) on every pair both variants would render (eps < 0 and
eccentricity below one). -/
theorem C4_amended_refinement (b1 b2 : BHRecord)
    (hm1 : 0 < b1.mass_msun) (hm2 : 0 < b2.mass_msun)
    (hr : b1.pos - b2.pos ≠ 0) :
    (E_binA b1 b2 < 0 ↔
      spec_eps b1.mass_msun b2.mass_msun (b1.pos - b2.pos) (b1.vel - b2.vel) < 0) ∧
    (∀ g, drawIndividualOrbitsForPair b1 b2 = some g →
      g.a_rel = spec_semiMajor b1.mass_msun b2.mass_msun (b1.pos - b2.pos) (b1.vel - b2.vel)) ∧
    (comVel b1 b2 = 0 →
      (E_binB b1 b2 < 0 ↔
        spec_eps b1.mass_msun b2.mass_msun (b1.pos - b2.pos) (b1.vel - b2.vel) < 0)) ∧
    (spec_eps b1.mass_msun b2.mass_msun (b1.pos - b2.pos) (b1.vel - b2.vel) < 0 →
      (eccVec (G * (b1.mass_msun + b2.mass_msun)) (b1.pos - b2.pos)
        (b1.vel - b2.vel)).length < 1 →
      semiMajorB b1 b2 =
        spec_semiMajor b1.mass_msun b2.mass_msun (b1.pos - b2.pos) (b1.vel - b2.vel)) := by
  have hM : 0 < b1.mass_msun + b2.mass_msun := by linarith
  refine ⟨E_binA_neg_iff b1 b2 hm1 hm2, ?_, ?_, ?_⟩
  · intro g hg
    simp only [drawIndividualOrbitsForPair] at hg
    split_ifs at hg with hA hB hC hD <;>
      first
      | (rw [Option.some_inj] at hg
         subst hg
         exact a_A_eq b1 b2 hm1 hm2 ((E_binA_neg_iff b1 b2 hm1 hm2).mp hB))
      | simp at hg
  · intro hcom
    rw [E_binB_eq_A b1 b2 hM.ne' hcom]
    exact E_binA_neg_iff b1 b2 hm1 hm2
  · intro heps hecc
    exact semiMajorB_eq b1 b2 hm1 hm2 hr heps hecc

/-- C4 witness: the amended refinement applied at a concrete pair of
positive-mass records with nonzero separation. -/
theorem C4_amended_refinement_witness :
    (0 : ℝ) < (⟨1, 1, 0, 0, 0, 0, 0, 0⟩ : BHRecord).mass_msun ∧
    ((⟨1, 1, 0, 0, 0, 0, 0, 0⟩ : BHRecord).pos - (⟨2, 1, 1, 0, 0, 0, 0, 0⟩ : BHRecord).pos ≠ 0) ∧
    ((E_binA ⟨1, 1, 0, 0, 0, 0, 0, 0⟩ ⟨2, 1, 1, 0, 0, 0, 0, 0⟩ < 0 ↔
      spec_eps (⟨1, 1, 0, 0, 0, 0, 0, 0⟩ : BHRecord).mass_msun
        (⟨2, 1, 1, 0, 0, 0, 0, 0⟩ : BHRecord).mass_msun
        ((⟨1, 1, 0, 0, 0, 0, 0, 0⟩ : BHRecord).pos - (⟨2, 1, 1, 0, 0, 0, 0, 0⟩ : BHRecord).pos)
        ((⟨1, 1, 0, 0, 0, 0, 0, 0⟩ : BHRecord).vel -
          (⟨2, 1, 1, 0, 0, 0, 0, 0⟩ : BHRecord).vel) < 0) ∧
    (∀ g, drawIndividualOrbitsForPair ⟨1, 1, 0, 0, 0, 0, 0, 0⟩ ⟨2, 1, 1, 0, 0, 0, 0, 0⟩ = some g →
      g.a_rel = spec_semiMajor (⟨1, 1, 0, 0, 0, 0, 0, 0⟩ : BHRecord).mass_msun
        (⟨2, 1, 1, 0, 0, 0, 0, 0⟩ : BHRecord).mass_msun
        ((⟨1, 1, 0, 0, 0, 0, 0, 0⟩ : BHRecord).pos - (⟨2, 1, 1, 0, 0, 0, 0, 0⟩ : BHRecord).pos)
        ((⟨1, 1, 0, 0, 0, 0, 0, 0⟩ : BHRecord).vel -
          (⟨2, 1, 1, 0, 0, 0, 0, 0⟩ : BHRecord).vel)) ∧
    (comVel ⟨1, 1, 0, 0, 0, 0, 0, 0⟩ ⟨2, 1, 1, 0, 0, 0, 0, 0⟩ = 0 →
      (E_binB ⟨1, 1, 0, 0, 0, 0, 0, 0⟩ ⟨2, 1, 1, 0, 0, 0, 0, 0⟩ < 0 ↔
        spec_eps (⟨1, 1, 0, 0, 0, 0, 0, 0⟩ : BHRecord).mass_msun
          (⟨2, 1, 1, 0, 0, 0, 0, 0⟩ : BHRecord).mass_msun
          ((⟨1, 1, 0, 0, 0, 0, 0, 0⟩ : BHRecord).pos - (⟨2, 1, 1, 0, 0, 0, 0, 0⟩ : BHRecord).pos)
          ((⟨1, 1, 0, 0, 0, 0, 0, 0⟩ : BHRecord).vel -
            (⟨2, 1, 1, 0, 0, 0, 0, 0⟩ : BHRecord).vel) < 0)) ∧
    (spec_eps (⟨1, 1, 0, 0, 0, 0, 0, 0⟩ : BHRecord).mass_msun
        (⟨2, 1, 1, 0, 0, 0, 0, 0⟩ : BHRecord).mass_msun
        ((⟨1, 1, 0, 0, 0, 0, 0, 0⟩ : BHRecord).pos - (⟨2, 1, 1, 0, 0, 0, 0, 0⟩ : BHRecord).pos)
        ((⟨1, 1, 0, 0, 0, 0, 0, 0⟩ : BHRecord).vel -
          (⟨2, 1, 1, 0, 0, 0, 0, 0⟩ : BHRecord).vel) < 0 →
      (eccVec (G * ((⟨1, 1, 0, 0, 0, 0, 0, 0⟩ : BHRecord).mass_msun +
          (⟨2, 1, 1, 0, 0, 0, 0, 0⟩ : BHRecord).mass_msun))
        ((⟨1, 1, 0, 0, 0, 0, 0, 0⟩ : BHRecord).pos - (⟨2, 1, 1, 0, 0, 0, 0, 0⟩ : BHRecord).pos)
        ((⟨1, 1, 0, 0, 0, 0, 0, 0⟩ : BHRecord).vel -
          (⟨2, 1, 1, 0, 0, 0, 0, 0⟩ : BHRecord).vel)).length < 1 →
      semiMajorB ⟨1, 1, 0, 0, 0, 0, 0, 0⟩ ⟨2, 1, 1, 0, 0, 0, 0, 0⟩ =
        spec_semiMajor (⟨1, 1, 0, 0, 0, 0, 0, 0⟩ : BHRecord).mass_msun
          (⟨2, 1, 1, 0, 0, 0, 0, 0⟩ : BHRecord).mass_msun
          ((⟨1, 1, 0, 0, 0, 0, 0, 0⟩ : BHRecord).pos - (⟨2, 1, 1, 0, 0, 0, 0, 0⟩ : BHRecord).pos)
          ((⟨1, 1, 0, 0, 0, 0, 0, 0⟩ : BHRecord).vel -
            (⟨2, 1, 1, 0, 0, 0, 0, 0⟩ : BHRecord).vel))) :=
  ⟨by show (0 : ℝ) < 1; norm_num,
   by
     intro hcon
     have hx := congrArg Vec3.x hcon
     simp only [BHRecord.pos, Vec3.sub_x, Vec3.zero_x] at hx
     norm_num at hx,
   C4_amended_refinement ⟨1, 1, 0, 0, 0, 0, 0, 0⟩ ⟨2, 1, 1, 0, 0, 0, 0, 0⟩
     (by show (0 : ℝ) < 1; norm_num) (by show (0 : ℝ) < 1; norm_num)
     (by
       intro hcon
       have hx := congrArg Vec3.x hcon
       simp only [BHRecord.pos, Vec3.sub_x, Vec3.zero_x] at hx
       norm_num at hx)⟩

/-! Resource lifecycle of persistent visuals (claim C7).  A visual is
modelled by its disposal and scene-membership flags; cleanupObject models the
helper of the VR variant of main.js (lines 60-74, identical to cleanup of
part_000): dispose the geometry, dispose the material(s), remove from the
scene.  The removal loops over the per-id map are modelled on an association
list together with the list of destroyed visuals they produce. -/

/-- Flags of a GPU-backed visual: geometry disposed, material disposed, still
attached to the scene graph. -/
structure Visual where
  geomDisposed : Bool
  matDisposed : Bool
  inScene : Bool
deriving DecidableEq

/-- cleanupObject of main.js (and cleanup of part_000): dispose geometry and
material(s) and remove the object from the scene. -/
def cleanupObject (v : Visual) : Visual := ⟨true, true, false⟩

/-- The vanished-id removal loop of the VR variant of main.js (lines 267-274)
and of part_000 (line 242): every sphere whose id is not in the visible set is
passed to cleanupObject and its map entry deleted.  Returns the surviving map
and the destroyed visuals. -/
def removeVanishedA (visible : List Int) (objs : List (Int × Visual)) :
    List (Int × Visual) × List Visual :=
  (objs.filter (fun p => visible.contains p.1),
   (objs.filter (fun p => !(visible.contains p.1))).map (fun p => cleanupObject p.2))

/-- The vanished-id removal loop of the older appended variant of main.js
(lines 1078-1085): every sphere whose id is not in the visible set is only
removed from the scene (scene.remove) and its map entry deleted; geometry and
material are not disposed. -/
def removeVanishedB (visible : List Int) (objs : List (Int × Visual)) :
    List (Int × Visual) × List Visual :=
  (objs.filter (fun p => visible.contains p.1),
   (objs.filter (fun p => !(visible.contains p.1))).map
     (fun p => { p.2 with inScene := false }))

/-- C7 counterexample: in the older appended variant of main.js, a visual
whose id vanished from the timestep is removed from the scene and from the
map, but its geometry and material are left undisposed, contradicting the
claim that every destroyed per-id visual is explicitly disposed. -/
theorem C7_counterexample :
    (removeVanishedB [2] [(1, ⟨false, false, true⟩)]).2 = [⟨false, false, false⟩] ∧
    ¬ (∀ v ∈ (removeVanishedB [2] [(1, ⟨false, false, true⟩)]).2,
        v.geomDisposed = true ∧ v.matDisposed = true) := by
  constructor
  · rfl
  · intro h
    have := h ⟨false, false, false⟩ (by simp [removeVanishedB])
    simp at this

/-- C7 amended: in the VR variant of main.js and in part_000 every vanished
per-id visual is disposed (geometry and materials) and removed from the scene
before its map entry is deleted, and surviving entries are exactly the visible
ids; in the older appended variant of main.js a vanished visual is removed
from the scene and the map but its disposal flags are left unchanged. -/
theorem C7_amended_cleanup (visible : List Int) (objs : List (Int × Visual)) :
    (∀ v ∈ (removeVanishedA visible objs).2,
      v.geomDisposed = true ∧ v.matDisposed = true ∧ v.inScene = false) ∧
    (∀ p ∈ (removeVanishedA visible objs).1, visible.contains p.1 = true) ∧
    (∀ p ∈ objs, visible.contains p.1 = false →
      ∃ v ∈ (removeVanishedB visible objs).2, v.inScene = false ∧
        v.geomDisposed = p.2.geomDisposed ∧ v.matDisposed = p.2.matDisposed) := by
  refine ⟨?_, ?_, ?_⟩
  · intro v hv
    simp only [removeVanishedA, List.mem_map] at hv
    obtain ⟨p, _, rfl⟩ := hv
    exact ⟨rfl, rfl, rfl⟩
  · intro p hp
    simp only [removeVanishedA, List.mem_filter] at hp
    exact hp.2
  · intro p hp hcon
    refine ⟨{ p.2 with inScene := false }, ?_, rfl, rfl, rfl⟩
    simp only [removeVanishedB, List.mem_map]
    exact ⟨p, List.mem_filter.mpr ⟨hp, by simp only [Bool.not_eq_true']; simpa using hcon⟩, rfl⟩

/-- C7 witness: the amended cleanup statement applied at a concrete map with
one vanished undisposed visual. -/
theorem C7_amended_cleanup_witness :
    ((1 : Int), (⟨false, false, true⟩ : Visual)) ∈
      [((1 : Int), (⟨false, false, true⟩ : Visual))] ∧
    ([2] : List Int).contains (1 : Int) = false ∧
    ∃ v ∈ (removeVanishedB [2] [(1, ⟨false, false, true⟩)]).2, v.inScene = false ∧
      v.geomDisposed = (⟨false, false, true⟩ : Visual).geomDisposed ∧
      v.matDisposed = (⟨false, false, true⟩ : Visual).matDisposed :=
  ⟨by simp, by decide,
   (C7_amended_cleanup [2] [(1, ⟨false, false, true⟩)]).2.2
     (1, ⟨false, false, true⟩) (by simp) (by decide)⟩

/-! The numeric guard of the vector draws (claim C8), with the JS numeric
domain kept so that NaN and the infinities are distinguishable. -/

/-- A JS number: an ordinary (finite) real, NaN, or an infinity. -/
inductive JSNum where
  | val : ℝ → JSNum
  | nan : JSNum
  | posInf : JSNum
  | negInf : JSNum

/-- The isNaN test of JS. -/
def JSNum.isNaN : JSNum → Bool
  | JSNum.nan => true
  | _ => false

/-- Finiteness of a JS number (Number.isFinite). -/
def JSNum.isFiniteJS : JSNum → Bool
  | JSNum.val _ => true
  | _ => false

/-- A direction vector with JS-number components. -/
structure JSVec3 where
  x : JSNum
  y : JSNum
  z : JSNum

/-- The guard of drawVector (main.js lines 535-541) and drawArrow (part_000
lines 127-131): the draw is suppressed when the requested length is at or
below 1e-6 or the x component of the direction is NaN (the source also bails
out on a null direction, which the embedding excludes by typing); otherwise
the arrow object is created and added to the scene, whatever the remaining
components hold. -/
def drawVectorJS (length : ℝ) (direction : JSVec3) : Option (JSVec3 × ℝ) :=
  if length ≤ 1e-6 ∨ direction.x.isNaN then none else some (direction, length)

/-- C8 counterexample: a draw request of length 1 whose direction has a NaN y
component is not suppressed - the arrow is created and added - although the
claim requires suppression for any non-finite component. -/
theorem C8_counterexample :
    (drawVectorJS 1 ⟨JSNum.val 1, JSNum.nan, JSNum.val 0⟩).isSome = true ∧
    (⟨JSNum.val 1, JSNum.nan, JSNum.val 0⟩ : JSVec3).y.isFiniteJS = false := by
  constructor
  · rw [drawVectorJS, if_neg (by norm_num [JSNum.isNaN])]
    rfl
  · rfl

/-- C8 amended: a derived vector draw is suppressed exactly when the
requested length is at or below 1e-6 or the x component of the direction is
NaN; a NaN in the y or z component, or an infinite component, does not
suppress the draw. -/
theorem C8_amended_guard (length : ℝ) (direction : JSVec3) :
    drawVectorJS length direction = none ↔
      length ≤ 1e-6 ∨ direction.x.isNaN = true := by
  unfold drawVectorJS
  split_ifs with h
  · simp [h]
  · simp [h]

/-! Event-classifier claims (C5, C6, C2, C1). -/

/-- Every ellipse drawOrbit produces carries the requested pair ids and the
requested colour. -/
lemma drawOrbit_mem_fields (i1 i2 : Int) (data : List BHRecord) (com : Vec3) (col : Nat) :
    ∀ ell ∈ drawOrbit i1 i2 data com col,
      ell.idA = i1 ∧ ell.idB = i2 ∧ ell.color = col := by
  intro ell h
  rcases hf1 : findRec i1 data with _ | b1 <;> rcases hf2 : findRec i2 data with _ | b2 <;>
    simp only [drawOrbit, hf1, hf2] at h
  · exact absurd h (List.not_mem_nil ell)
  · exact absurd h (List.not_mem_nil ell)
  · exact absurd h (List.not_mem_nil ell)
  · split_ifs at h <;>
      first
      | (simp only [List.mem_cons, List.mem_singleton, List.not_mem_nil, or_false] at h
         rcases h with h | h <;> subst h <;> exact ⟨rfl, rfl, rfl⟩)
      | exact absurd h (List.not_mem_nil ell)

/-- C5: for a selected Exchange event at a time at or after the event time
(with exactly one old-binary id absent from the new binary, as the definite
article of the claim presupposes), the post-event orbit is rendered for the
new binary pair - every drawn ellipse belongs to (id3, id4) and carries the
post-event colour; the velocity arrow of the phase targets exactly the
old-binary id that is not in the new binary (the ejected role); every
non-actor sphere is dimmed to opacity 0.1 with the default colour (inactive),
and every actor sphere, in particular the two new binary members, is at full
opacity. -/
theorem C5_exchange_post_roles (vsm : ℝ) (e : InteractionEvent) (time : ℝ)
    (bhData : List BHRecord) (com : Vec3) (spheres : Int → Option Sphere)
    (ht : e.time ≤ time)
    (hone : (e.id1 = e.id3 ∨ e.id1 = e.id4) ↔ ¬(e.id2 = e.id3 ∨ e.id2 = e.id4)) :
    ((exchangeEjected e = e.id1 ∨ exchangeEjected e = e.id2) ∧
      ¬(exchangeEjected e = e.id3 ∨ exchangeEjected e = e.id4)) ∧
    (∀ ell ∈ (handleExchangeEvent vsm e time bhData com spheres).ellipses,
      ell.idA = e.id3 ∧ ell.idB = e.id4 ∧ ell.color = POST_EVENT_COLOR) ∧
    ((handleExchangeEvent vsm e time bhData com spheres).arrows =
      comVelArrow vsm e.id3 e.id4 bhData com ++
        drawVel vsm (exchangeEjected e) bhData com VECTOR_COLOR 20) ∧
    (∀ id, ¬(id = e.id1 ∨ id = e.id2 ∨ id = e.id3 ∨ id = e.id4) →
      ∀ s, (handleExchangeEvent vsm e time bhData com spheres).spheres id = some s →
        s.opacity = 0.1 ∧ s.color = DEFAULT_COLOR) ∧
    (∀ id, (id = e.id1 ∨ id = e.id2 ∨ id = e.id3 ∨ id = e.id4) →
      ∀ s, (handleExchangeEvent vsm e time bhData com spheres).spheres id = some s →
        s.opacity = 1) := by
  have hpost : ¬ (time < e.time) := not_lt.mpr ht
  refine ⟨?_, ?_, ?_, ?_, ?_⟩
  · unfold exchangeEjected
    split_ifs with h
    · exact ⟨Or.inr rfl, hone.mp h⟩
    · exact ⟨Or.inl rfl, h⟩
  · intro ell hmem
    simp only [handleExchangeEvent, if_neg hpost] at hmem
    exact drawOrbit_mem_fields e.id3 e.id4 bhData com POST_EVENT_COLOR ell hmem
  · simp only [handleExchangeEvent, if_neg hpost]
  · intro id hnid s hs
    simp only [handleExchangeEvent, if_neg hpost, Option.map_eq_some'] at hs
    obtain ⟨s0, _, rfl⟩ := hs
    unfold recolorExchange
    rw [if_pos hnid]
    exact ⟨rfl, rfl⟩
  · intro id hid s hs
    simp only [handleExchangeEvent, if_neg hpost, Option.map_eq_some'] at hs
    obtain ⟨s0, _, rfl⟩ := hs
    unfold recolorExchange
    rw [if_neg (not_not_intro hid)]
    split_ifs <;> rfl

/-- C5 witness: the scenario of the claim - Exchange event at time 100 with
old binary (1, 2) and new binary (1, 3), evaluated at time 150; in
particular the ejected id computed by the handler is 2. -/
theorem C5_exchange_post_roles_witness :
    exchangeEjected ⟨EType.EXCHANGE, 100, 1, 2, 1, 3⟩ = 2 ∧
    ((100 : ℝ) ≤ 150) ∧
    (((1 : Int) = 1 ∨ (1 : Int) = 3) ↔ ¬((2 : Int) = 1 ∨ (2 : Int) = 3)) ∧
    (((exchangeEjected ⟨EType.EXCHANGE, 100, 1, 2, 1, 3⟩ = 1 ∨
        exchangeEjected ⟨EType.EXCHANGE, 100, 1, 2, 1, 3⟩ = 2) ∧
      ¬(exchangeEjected ⟨EType.EXCHANGE, 100, 1, 2, 1, 3⟩ = 1 ∨
        exchangeEjected ⟨EType.EXCHANGE, 100, 1, 2, 1, 3⟩ = 3)) ∧
    (∀ ell ∈ (handleExchangeEvent 1 ⟨EType.EXCHANGE, 100, 1, 2, 1, 3⟩ 150 [] 0
        (fun _ => none)).ellipses,
      ell.idA = 1 ∧ ell.idB = 3 ∧ ell.color = POST_EVENT_COLOR) ∧
    ((handleExchangeEvent 1 ⟨EType.EXCHANGE, 100, 1, 2, 1, 3⟩ 150 [] 0
        (fun _ => none)).arrows =
      comVelArrow 1 1 3 [] 0 ++
        drawVel 1 (exchangeEjected ⟨EType.EXCHANGE, 100, 1, 2, 1, 3⟩) [] 0 VECTOR_COLOR 20) ∧
    (∀ id, ¬(id = 1 ∨ id = 2 ∨ id = 1 ∨ id = 3) →
      ∀ s, (handleExchangeEvent 1 ⟨EType.EXCHANGE, 100, 1, 2, 1, 3⟩ 150 [] 0
          (fun _ => none)).spheres id = some s →
        s.opacity = 0.1 ∧ s.color = DEFAULT_COLOR) ∧
    (∀ id, (id = 1 ∨ id = 2 ∨ id = 1 ∨ id = 3) →
      ∀ s, (handleExchangeEvent 1 ⟨EType.EXCHANGE, 100, 1, 2, 1, 3⟩ 150 [] 0
          (fun _ => none)).spheres id = some s →
        s.opacity = 1)) :=
  ⟨rfl, by norm_num, by decide,
   C5_exchange_post_roles 1 ⟨EType.EXCHANGE, 100, 1, 2, 1, 3⟩ 150 [] 0 (fun _ => none)
     (by norm_num) (by decide)⟩

/-- In the post phase, a recoloured sphere holds the remnant role (full
opacity and post-event colour) exactly when its id is the determined remnant. -/
lemma recolorMerge_post_role (e : InteractionEvent) (rid : Option Int) (time : ℝ)
    (id : Int) (s : Sphere) (hpost : ¬ time < e.time) :
    ((recolorMerge e rid time id s).opacity = 1 ∧
      (recolorMerge e rid time id s).color = POST_EVENT_COLOR) ↔ some id = rid := by
  unfold recolorMerge
  rcases eq_or_ne (some id) rid with hr | hr
  · rw [if_neg (not_not_intro (Or.inr (Or.inr hr))), if_neg hpost, if_pos hr]
    simp [hr]
  · by_cases h1 : ¬(id = e.id1 ∨ id = e.id2 ∨ some id = rid)
    · rw [if_pos h1]
      simp only [hr, iff_false]
      intro hcon
      norm_num at hcon
    · rw [if_neg h1, if_neg hpost, if_neg hr]
      simp only [hr, iff_false]
      intro hcon
      norm_num at hcon

/-- In the post phase with no determined remnant, every recoloured sphere is
dimmed to opacity 0.1. -/
lemma recolorMerge_post_none_opacity (e : InteractionEvent) (time : ℝ)
    (id : Int) (s : Sphere) (hpost : ¬ time < e.time) :
    (recolorMerge e none time id s).opacity = 0.1 := by
  unfold recolorMerge
  by_cases h1 : ¬(id = e.id1 ∨ id = e.id2 ∨ some id = (none : Option Int))
  · rw [if_pos h1]
  · rw [if_neg h1, if_neg hpost, if_neg (by simp)]

/-- C6: for a selected Merge event at a time at or after the event time, when
exactly one of the two progenitor ids is present in the current particle set
(and the sphere map mirrors that set, as updateBlackHoles establishes), the
remnant role - full opacity together with the post-event colour - is held by
exactly the present progenitor id and by no other particle. -/
theorem C6_merge_remnant_role (env : Env) (e : InteractionEvent) (time : ℝ)
    (bhData : List BHRecord) (com : Vec3) (spheres : Int → Option Sphere)
    (ht : e.time ≤ time)
    (hone : (bhData.map (·.bh_id)).contains e.id1 ≠ (bhData.map (·.bh_id)).contains e.id2)
    (hsph : ∀ id, ((spheres id).isSome) = (bhData.map (·.bh_id)).contains id) :
    ∀ id, (∃ s, (handleMergeEvent env e time bhData com spheres).spheres id = some s ∧
        s.opacity = 1 ∧ s.color = POST_EVENT_COLOR) ↔
      ((id = e.id1 ∨ id = e.id2) ∧ (bhData.map (·.bh_id)).contains id = true) := by
  have hpost : ¬ (time < e.time) := not_lt.mpr ht
  intro id
  constructor
  · rintro ⟨s, hs, hop, hcol⟩
    simp only [handleMergeEvent, if_neg hpost, Option.map_eq_some'] at hs
    obtain ⟨s0, hs0, rfl⟩ := hs
    have hrole := (recolorMerge_post_role e (mergeRemnant e bhData) time id s0 hpost).mp
      ⟨hop, hcol⟩
    rcases hb1 : (bhData.map (·.bh_id)).contains e.id1 with _ | _
    · have hb2 : (bhData.map (·.bh_id)).contains e.id2 = true := by
        rcases hb : (bhData.map (·.bh_id)).contains e.id2 with _ | _
        · exact absurd (hb1.trans hb.symm) hone
        · exact hb
      simp only [mergeRemnant, hb1, hb2] at hrole
      simp only [Bool.false_eq_true, if_false, if_true, Option.some_inj] at hrole
      subst hrole
      exact ⟨Or.inr rfl, hb2⟩
    · simp only [mergeRemnant, hb1, if_true, Option.some_inj] at hrole
      subst hrole
      exact ⟨Or.inl rfl, hb1⟩
  · rintro ⟨hid, hin⟩
    have hrole : some id = mergeRemnant e bhData := by
      rcases hb1 : (bhData.map (·.bh_id)).contains e.id1 with _ | _
      · have hb2 : (bhData.map (·.bh_id)).contains e.id2 = true := by
          rcases hb : (bhData.map (·.bh_id)).contains e.id2 with _ | _
          · exact absurd (hb1.trans hb.symm) hone
          · exact hb
        have hid2 : id = e.id2 := by
          rcases hid with h | h
          · subst h
            rw [hin] at hb1
            exact absurd hb1 (by simp)
          · exact h
        subst hid2
        have hrr : mergeRemnant e bhData = some e.id2 := by
          simp only [mergeRemnant]
          rw [hb1, hb2]
          simp
        rw [hrr]
      · have hid1 : id = e.id1 := by
          rcases hid with h | h
          · exact h
          · subst h
            have hb2 : (bhData.map (·.bh_id)).contains e.id2 = false := by
              rcases hb : (bhData.map (·.bh_id)).contains e.id2 with _ | _
              · exact hb
              · exact absurd (hb1.trans hb.symm) hone
            rw [hin] at hb2
            exact absurd hb2 (by simp)
        subst hid1
        have hrr : mergeRemnant e bhData = some e.id1 := by
          simp only [mergeRemnant]
          rw [hb1]
          simp
        rw [hrr]
    have hsome : (spheres id).isSome = true := by rw [hsph]; exact hin
    obtain ⟨s0, hs0⟩ := Option.isSome_iff_exists.mp hsome
    have hrc := (recolorMerge_post_role e (mergeRemnant e bhData) time id s0 hpost).mpr hrole
    refine ⟨recolorMerge e (mergeRemnant e bhData) time id s0, ?_, hrc.1, hrc.2⟩
    simp only [handleMergeEvent, if_neg hpost]
    rw [hs0]
    rfl

/-- A concrete session environment for evaluating the model: the given data
and selected event, with every toggle at its initial value and all scale
multipliers at 1. -/
def mkEnv (tks : List ℝ) (td : ℝ → List BHRecord) (ev : Option InteractionEvent) : Env :=
  { timeKeys := tks
    timeData := td
    nsData := fun _ => []
    selectedEvent := ev
    highlightedBhId := none
    massFilterMin := none
    massFilterMax := none
    useComFrame := false
    showSpinVectors := false
    isCameraTracking := false
    xrPresenting := false
    nsVisibleChecked := true
    velScaleMultiplier := 1
    spinScaleMultiplier := 1
    particleSizeMultiplier := 1
    highlightColor := 0xffff33
    massRangeColor := 0x39ff14 }

/-- C6 witness: the merge scenario of the spec - event at time 100 with
progenitors (1, 2), only id 1 present afterwards - evaluated at time 150. -/
theorem C6_merge_remnant_role_witness :
    ((100 : ℝ) ≤ 150) ∧
    (([(⟨1, 1, 0, 0, 0, 0, 0, 0⟩ : BHRecord)].map (·.bh_id)).contains (1 : Int) ≠
      ([(⟨1, 1, 0, 0, 0, 0, 0, 0⟩ : BHRecord)].map (·.bh_id)).contains (2 : Int)) ∧
    (∀ id, (∃ s, (handleMergeEvent (mkEnv [] (fun _ => []) none)
          ⟨EType.MERGE, 100, 1, 2, 0, 0⟩ 150 [(⟨1, 1, 0, 0, 0, 0, 0, 0⟩ : BHRecord)] 0
          (fun id => if id = 1 then some (newSphere ⟨1, 1, 0, 0, 0, 0, 0, 0⟩) else none)).spheres
            id = some s ∧
        s.opacity = 1 ∧ s.color = POST_EVENT_COLOR) ↔
      ((id = 1 ∨ id = 2) ∧
        (([(⟨1, 1, 0, 0, 0, 0, 0, 0⟩ : BHRecord)].map (·.bh_id)).contains id = true))) :=
  ⟨by norm_num,
   by decide,
   C6_merge_remnant_role (mkEnv [] (fun _ => []) none) ⟨EType.MERGE, 100, 1, 2, 0, 0⟩ 150
     [⟨1, 1, 0, 0, 0, 0, 0, 0⟩] 0
     (fun id => if id = 1 then some (newSphere ⟨1, 1, 0, 0, 0, 0, 0, 0⟩) else none)
     (by norm_num) (by decide)
     (by
       intro id
       rcases eq_or_ne id 1 with h | h
       · subst h
         rfl
       · simp only []
         rw [if_neg h]
         simp [List.contains, h, Ne.symm h])⟩

/-- C2 counterexample: for a Merge event whose two progenitor ids are both
present at a post-event time (the malformed-data case of the claim), the
handler does assign the remnant role - the sphere of progenitor id1 receives
full opacity and the post-event colour - and does draw post-merge vectors,
contradicting the claim that neither happens. -/
theorem C2_counterexample :
    ((handleMergeEvent
        (mkEnv [(50 : ℝ), 100]
          (fun _ => [⟨1, 1, 0, 0, 0, 1, 0, 0⟩, ⟨2, 1, 2, 0, 0, 1, 0, 0⟩])
          (some ⟨EType.MERGE, 100, 1, 2, 0, 0⟩))
        ⟨EType.MERGE, 100, 1, 2, 0, 0⟩ 100
        [⟨1, 1, 0, 0, 0, 1, 0, 0⟩, ⟨2, 1, 3, 0, 0, 1, 0, 0⟩] 0
        (fun id => if id = 1 then some (newSphere ⟨1, 1, 0, 0, 0, 1, 0, 0⟩)
          else if id = 2 then some (newSphere ⟨2, 1, 3, 0, 0, 1, 0, 0⟩)
          else none)).spheres 1).map (fun s => (s.opacity, s.color)) =
      some ((1 : ℝ), POST_EVENT_COLOR) ∧
    (handleMergeEvent
        (mkEnv [(50 : ℝ), 100]
          (fun _ => [⟨1, 1, 0, 0, 0, 1, 0, 0⟩, ⟨2, 1, 2, 0, 0, 1, 0, 0⟩])
          (some ⟨EType.MERGE, 100, 1, 2, 0, 0⟩))
        ⟨EType.MERGE, 100, 1, 2, 0, 0⟩ 100
        [⟨1, 1, 0, 0, 0, 1, 0, 0⟩, ⟨2, 1, 3, 0, 0, 1, 0, 0⟩] 0
        (fun id => if id = 1 then some (newSphere ⟨1, 1, 0, 0, 0, 1, 0, 0⟩)
          else if id = 2 then some (newSphere ⟨2, 1, 3, 0, 0, 1, 0, 0⟩)
          else none)).arrows ≠ [] := by
  have hpost : ¬ ((100 : ℝ) < (⟨EType.MERGE, 100, 1, 2, 0, 0⟩ : InteractionEvent).time) := by
    show ¬ ((100 : ℝ) < 100)
    norm_num
  have hrem : mergeRemnant ⟨EType.MERGE, 100, 1, 2, 0, 0⟩
      [(⟨1, 1, 0, 0, 0, 1, 0, 0⟩ : BHRecord), ⟨2, 1, 3, 0, 0, 1, 0, 0⟩] = some 1 := by
    decide
  have hrc : recolorMerge ⟨EType.MERGE, 100, 1, 2, 0, 0⟩ (some 1) 100 1
      (newSphere ⟨1, 1, 0, 0, 0, 1, 0, 0⟩) =
      ⟨⟨1, 1, 0, 0, 0, 1, 0, 0⟩, 0, 0, POST_EVENT_COLOR, 1⟩ := by
    unfold recolorMerge
    rw [if_neg (not_not_intro (Or.inl rfl)), if_neg hpost, if_pos rfl]
    rfl
  have hpre : preMergeTimeKey [(50 : ℝ), 100] (100 : ℝ) = some 50 := by
    simp only [preMergeTimeKey, findGeIdx]
    norm_num
  have hlen1 : Vec3.length ⟨1, 0, 0⟩ = 1 := by
    simp only [Vec3.length, Vec3.lengthSq, Vec3.dot]
    rw [show (1 : ℝ) * 1 + 0 * 0 + 0 * 0 = 1 by norm_num]
    exact Real.sqrt_one
  constructor
  · simp only [handleMergeEvent, if_neg hpost, hrem]
    rw [if_pos trivial, Option.map_some', hrc, Option.map_some']
  · simp only [handleMergeEvent, if_neg hpost, hrem, mkEnv]
    have hfr : findRec 1 [(⟨1, 1, 0, 0, 0, 1, 0, 0⟩ : BHRecord), ⟨2, 1, 3, 0, 0, 1, 0, 0⟩] =
        some ⟨1, 1, 0, 0, 0, 1, 0, 0⟩ := rfl
    have hf1 : findRec 1 [(⟨1, 1, 0, 0, 0, 1, 0, 0⟩ : BHRecord), ⟨2, 1, 2, 0, 0, 1, 0, 0⟩] =
        some ⟨1, 1, 0, 0, 0, 1, 0, 0⟩ := rfl
    have hf2 : findRec 2 [(⟨1, 1, 0, 0, 0, 1, 0, 0⟩ : BHRecord), ⟨2, 1, 2, 0, 0, 1, 0, 0⟩] =
        some ⟨2, 1, 2, 0, 0, 1, 0, 0⟩ := rfl
    simp only [hfr, hf1, hf2, BHRecord.vel, BHRecord.pos]
    rw [hpre]
    simp only [drawArrow]
    rw [hlen1]
    rw [if_neg (by norm_num : ¬ ((1 : ℝ) * 20 * 1 ≤ 1e-6))]
    simp

/-- C2 amended: at a post-event time, when neither progenitor id is present
no remnant is determined, every sphere is dimmed to opacity 0.1 (so no
remnant role is assigned) and no post-merge vectors or ellipses are drawn;
when both progenitor ids are present the handler determines the remnant to be
progenitor id1 (rather than assigning no remnant role). -/
theorem C2_amended_merge_ambiguity (env : Env) (e : InteractionEvent) (time : ℝ)
    (bhData : List BHRecord) (com : Vec3) (spheres : Int → Option Sphere)
    (ht : e.time ≤ time) :
    ((bhData.map (·.bh_id)).contains e.id1 = false →
      (bhData.map (·.bh_id)).contains e.id2 = false →
      mergeRemnant e bhData = none ∧
      (handleMergeEvent env e time bhData com spheres).arrows = [] ∧
      (handleMergeEvent env e time bhData com spheres).ellipses = [] ∧
      ∀ id s, (handleMergeEvent env e time bhData com spheres).spheres id = some s →
        s.opacity = 0.1) ∧
    ((bhData.map (·.bh_id)).contains e.id1 = true →
      (bhData.map (·.bh_id)).contains e.id2 = true →
      mergeRemnant e bhData = some e.id1) := by
  have hpost : ¬ (time < e.time) := not_lt.mpr ht
  constructor
  · intro h1 h2
    have hrem : mergeRemnant e bhData = none := by
      simp only [mergeRemnant]
      rw [h1, h2]
      simp
    refine ⟨hrem, ?_, ?_, ?_⟩
    · simp only [handleMergeEvent, if_neg hpost, hrem]
    · simp only [handleMergeEvent, if_neg hpost]
    · intro id s hs
      simp only [handleMergeEvent, if_neg hpost, hrem, Option.map_eq_some'] at hs
      obtain ⟨s0, _, rfl⟩ := hs
      exact recolorMerge_post_none_opacity e time id s0 hpost
  · intro h1 _
    simp only [mergeRemnant]
    rw [h1]
    simp

/-- C2 witness: the amended statement applied at a post-event time with an
empty particle set, where neither progenitor is present. -/
theorem C2_amended_merge_ambiguity_witness :
    ((100 : ℝ) ≤ 100) ∧
    ((((([] : List BHRecord).map (·.bh_id)).contains (1 : Int) = false →
        (([] : List BHRecord).map (·.bh_id)).contains (2 : Int) = false →
        mergeRemnant ⟨EType.MERGE, 100, 1, 2, 0, 0⟩ [] = none ∧
        (handleMergeEvent (mkEnv [] (fun _ => []) none) ⟨EType.MERGE, 100, 1, 2, 0, 0⟩ 100 [] 0
          (fun _ => none)).arrows = [] ∧
        (handleMergeEvent (mkEnv [] (fun _ => []) none) ⟨EType.MERGE, 100, 1, 2, 0, 0⟩ 100 [] 0
          (fun _ => none)).ellipses = [] ∧
        ∀ id s, (handleMergeEvent (mkEnv [] (fun _ => []) none) ⟨EType.MERGE, 100, 1, 2, 0, 0⟩
            100 [] 0 (fun _ => none)).spheres id = some s →
          s.opacity = 0.1) ∧
      ((([] : List BHRecord).map (·.bh_id)).contains (1 : Int) = true →
        (([] : List BHRecord).map (·.bh_id)).contains (2 : Int) = true →
        mergeRemnant ⟨EType.MERGE, 100, 1, 2, 0, 0⟩ [] = some 1))) :=
  ⟨by norm_num,
   C2_amended_merge_ambiguity (mkEnv [] (fun _ => []) none) ⟨EType.MERGE, 100, 1, 2, 0, 0⟩ 100
     [] 0 (fun _ => none) (by norm_num)⟩

/-- C1: the code computes the kick vector v_remnant minus v_com_pre (into the
unused vKick of part_000) but the arrow it draws for the remnant is the raw
remnant velocity (in part_000 in the remnant-velocity colour, in main.js the
same velocity under KICK_VECTOR_COLOR at scale 0.5).  At a concrete merge
whose remnant velocity exactly equals the pre-merger centre-of-mass velocity,
the computed kick is the zero vector yet a length-20 arrow along the remnant
velocity is drawn instead of the suppressed zero-length kick the claim
requires. -/
theorem C1_kick_vector_code_bug :
    mergeKick ⟨1, 1, 0, 0, 0, 1, 0, 0⟩ ⟨2, 1, 2, 0, 0, 1, 0, 0⟩ ⟨1, 2, 5, 0, 0, 1, 0, 0⟩ = 0 ∧
    (handleMergeEvent
        (mkEnv [(50 : ℝ), 100]
          (fun _ => [⟨1, 1, 0, 0, 0, 1, 0, 0⟩, ⟨2, 1, 2, 0, 0, 1, 0, 0⟩])
          (some ⟨EType.MERGE, 100, 1, 2, 0, 0⟩))
        ⟨EType.MERGE, 100, 1, 2, 0, 0⟩ 100 [⟨1, 2, 5, 0, 0, 1, 0, 0⟩] 0
        (fun _ => none)).arrows =
      [⟨⟨5, 0, 0⟩, ⟨1, 0, 0⟩, 1 * 20 * 1, REMNANT_VEL_COLOR⟩] := by
  have hlen1 : Vec3.length ⟨1, 0, 0⟩ = 1 := by
    simp only [Vec3.length, Vec3.lengthSq, Vec3.dot]
    rw [show (1 : ℝ) * 1 + 0 * 0 + 0 * 0 = 1 by norm_num]
    exact Real.sqrt_one
  constructor
  · have hcv : comVel ⟨1, 1, 0, 0, 0, 1, 0, 0⟩ ⟨2, 1, 2, 0, 0, 1, 0, 0⟩ = ⟨1, 0, 0⟩ := by
      ext <;> simp [comVel, BHRecord.vel] <;> norm_num
    rw [mergeKick, hcv]
    ext <;> simp [BHRecord.vel]
  · have hpost : ¬ ((100 : ℝ) < (⟨EType.MERGE, 100, 1, 2, 0, 0⟩ : InteractionEvent).time) := by
      show ¬ ((100 : ℝ) < 100)
      norm_num
    have hrem : mergeRemnant ⟨EType.MERGE, 100, 1, 2, 0, 0⟩
        [(⟨1, 2, 5, 0, 0, 1, 0, 0⟩ : BHRecord)] = some 1 := by decide
    have hpre : preMergeTimeKey [(50 : ℝ), 100] (100 : ℝ) = some 50 := by
      simp only [preMergeTimeKey, findGeIdx]
      norm_num
    simp only [handleMergeEvent, if_neg hpost, hrem, mkEnv]
    have hfr : findRec 1 [(⟨1, 2, 5, 0, 0, 1, 0, 0⟩ : BHRecord)] =
        some ⟨1, 2, 5, 0, 0, 1, 0, 0⟩ := rfl
    have hf1 : findRec 1 [(⟨1, 1, 0, 0, 0, 1, 0, 0⟩ : BHRecord), ⟨2, 1, 2, 0, 0, 1, 0, 0⟩] =
        some ⟨1, 1, 0, 0, 0, 1, 0, 0⟩ := rfl
    have hf2 : findRec 2 [(⟨1, 1, 0, 0, 0, 1, 0, 0⟩ : BHRecord), ⟨2, 1, 2, 0, 0, 1, 0, 0⟩] =
        some ⟨2, 1, 2, 0, 0, 1, 0, 0⟩ := rfl
    simp only [hfr, hf1, hf2, BHRecord.vel, BHRecord.pos]
    rw [hpre]
    simp only [drawArrow]
    rw [hlen1]
    rw [if_neg (by norm_num : ¬ ((1 : ℝ) * 20 * 1 ≤ 1e-6))]
    have hn : Vec3.normalize ⟨1, 0, 0⟩ = ⟨1, 0, 0⟩ := by
      rw [Vec3.normalize, hlen1]
      ext <;> simp
    have hp5 : (⟨5, 0, 0⟩ : Vec3) - 0 = ⟨5, 0, 0⟩ := by
      ext <;> simp
    rw [hp5, hn]
    simp

/-! Timestep-update claims (C10, C9). -/

/-- C10: updateBlackHoles returns immediately on an out-of-range index -
at or past the number of sampled times, or negative (the part_000 guard; the
main.js VR variant guards only the upper side) - leaving the whole visual
state untouched: spheres, transient visuals, frame-box position, slider,
time label and camera target goal all unchanged. -/
theorem C10_out_of_range_noop (env : Env) (idx : Int) (s : VisState)
    (h : (env.timeKeys.length : Int) ≤ idx ∨ idx < 0) :
    updateBlackHoles env idx s = s := by
  simp only [updateBlackHoles]
  rw [if_pos h]

/-- C10 witness: the no-op evaluated on an empty time list at index 0. -/
theorem C10_out_of_range_noop_witness :
    (((mkEnv [] (fun _ => []) none).timeKeys.length : Int) ≤ 0 ∨ (0 : Int) < 0) ∧
    updateBlackHoles (mkEnv [] (fun _ => []) none) 0
        ⟨fun _ => none, fun _ => none, [], [], 0, 0, 0, 0⟩ =
      ⟨fun _ => none, fun _ => none, [], [], 0, 0, 0, 0⟩ :=
  ⟨Or.inl (by decide),
   C10_out_of_range_noop (mkEnv [] (fun _ => []) none) 0
     ⟨fun _ => none, fun _ => none, [], [], 0, 0, 0, 0⟩ (Or.inl (by decide))⟩

/-- The last record of the list carrying the given id (the record whose
per-frame assignments win in the create-or-update forEach). -/
def lastRec (id : Int) : List BHRecord → Option BHRecord
  | [] => none
  | b :: tl =>
      match lastRec id tl with
      | some r => some r
      | none => if id = b.bh_id then some b else none

lemma setKin_setKin (bh bh' : BHRecord) (com : Vec3) (psm : ℝ) (s : Sphere) :
    setKinematics bh com psm (setKinematics bh' com psm s) = setKinematics bh com psm s := rfl

lemma setKin_newSphere (bh bh' : BHRecord) (com : Vec3) (psm : ℝ) :
    setKinematics bh com psm (newSphere bh') = setKinematics bh com psm (newSphere bh) := rfl

/-- Pointwise evaluation of the create-or-update fold of the reconciliation:
the resulting sphere for an id is the per-frame assignment of the last record
with that id, applied to the prior sphere of the base map or to a fresh one. -/
lemma foldBh_eval (com : Vec3) (psm : ℝ) (bhData : List BHRecord)
    (base : Int → Option Sphere) (id : Int) :
    bhData.foldl
      (fun acc bh => fun i =>
        if i = bh.bh_id then some (setKinematics bh com psm ((acc i).getD (newSphere bh)))
        else acc i) base id =
      (match lastRec id bhData with
       | none => base id
       | some bh => some (setKinematics bh com psm ((base id).getD (newSphere bh)))) := by
  induction bhData generalizing base with
  | nil => simp [lastRec]
  | cons b tl ih =>
      rw [List.foldl_cons, ih]
      cases hlast : lastRec id tl with
      | some r =>
          simp only [lastRec, hlast]
          by_cases hb : id = b.bh_id
          · rw [if_pos hb]
            cases hbase : base id with
            | some s0 => simp [Option.getD, setKin_setKin]
            | none =>
                simp only [Option.getD, Option.getD_none, Option.getD_some]
                rw [setKin_setKin, setKin_newSphere]
          · rw [if_neg hb]
      | none =>
          simp only [lastRec, hlast]
          by_cases hb : id = b.bh_id
          · rw [if_pos hb, if_pos hb]
          · rw [if_neg hb, if_neg hb]

/-- The fold finds no record exactly when the id is absent from the data. -/
lemma lastRec_none_iff (id : Int) (l : List BHRecord) :
    lastRec id l = none ↔ (l.map (·.bh_id)).contains id = false := by
  induction l with
  | nil => simp [lastRec]
  | cons b tl ih =>
      simp only [lastRec, List.map_cons, List.contains_cons]
      cases hlast : lastRec id tl with
      | some r =>
          have hcon : (tl.map (·.bh_id)).contains id = true := by
            rcases hc : (tl.map (·.bh_id)).contains id with _ | _
            · rw [ih.mpr hc] at hlast
              exact absurd hlast (by simp)
            · exact hc
          rw [hcon]
          simp
      | none =>
          have hcon : (tl.map (·.bh_id)).contains id = false := ih.mp hlast
          rw [hcon]
          by_cases hb : id = b.bh_id
          · rw [if_pos hb]
            subst hb
            simp
          · rw [if_neg hb]
            have hbeq : (id == b.bh_id) = false := by
              simp only [beq_eq_false_iff_ne]
              exact hb
            rw [hbeq]
            simp

/-- Pointwise evaluation of rebuildBh: prune then create-or-update. -/
lemma rebuildBh_eval (spheres : Int → Option Sphere) (bhData : List BHRecord)
    (com : Vec3) (psm : ℝ) (id : Int) :
    rebuildBh spheres bhData com psm id =
      (match lastRec id bhData with
       | none => none
       | some bh => some (setKinematics bh com psm ((spheres id).getD (newSphere bh)))) := by
  unfold rebuildBh
  rw [foldBh_eval]
  cases hlast : lastRec id bhData with
  | none =>
      simp only []
      rw [(lastRec_none_iff id bhData).mp hlast]
      simp
  | some bh =>
      have hcon : (bhData.map (·.bh_id)).contains id = true := by
        rcases hc : (bhData.map (·.bh_id)).contains id with _ | _
        · rw [(lastRec_none_iff id bhData).mpr hc] at hlast
          exact absurd hlast (by simp)
        · exact hc
      simp only []
      rw [hcon]
      simp

/-- The per-frame colour-and-opacity pass the update applies to every sphere
after reconciliation: the selected-event handler recolouring, or the
no-event highlight / mass-filter recolouring. -/
def colorPass (env : Env) (time : ℝ) (bhData : List BHRecord) (id : Int) (s : Sphere) :
    Sphere :=
  match env.selectedEvent with
  | some e =>
      if e.etype = EType.EXCHANGE then recolorExchange e id s
      else recolorMerge e (mergeRemnant e bhData) time id s
  | none => recolorNoEvent env s

lemma recolorExchange_keeps (e : InteractionEvent) (id : Int) (s : Sphere) :
    (recolorExchange e id s).bhData = s.bhData ∧ (recolorExchange e id s).pos = s.pos ∧
      (recolorExchange e id s).scale = s.scale := by
  unfold recolorExchange
  split_ifs <;> exact ⟨rfl, rfl, rfl⟩

lemma recolorMerge_keeps (e : InteractionEvent) (rid : Option Int) (time : ℝ) (id : Int)
    (s : Sphere) :
    (recolorMerge e rid time id s).bhData = s.bhData ∧
      (recolorMerge e rid time id s).pos = s.pos ∧
      (recolorMerge e rid time id s).scale = s.scale := by
  unfold recolorMerge
  split_ifs <;> exact ⟨rfl, rfl, rfl⟩

lemma recolorNoEvent_keeps (env : Env) (s : Sphere) :
    (recolorNoEvent env s).bhData = s.bhData ∧ (recolorNoEvent env s).pos = s.pos ∧
      (recolorNoEvent env s).scale = s.scale := by
  rcases hmin : env.massFilterMin with _ | lo <;> rcases hmax : env.massFilterMax with _ | hi <;>
    simp only [recolorNoEvent, hmin, hmax] <;> split_ifs <;> exact ⟨rfl, rfl, rfl⟩

lemma colorPass_keeps (env : Env) (time : ℝ) (bhData : List BHRecord) (id : Int) (s : Sphere) :
    (colorPass env time bhData id s).bhData = s.bhData ∧
      (colorPass env time bhData id s).pos = s.pos ∧
      (colorPass env time bhData id s).scale = s.scale := by
  unfold colorPass
  rcases env.selectedEvent with _ | e
  · exact recolorNoEvent_keeps env s
  · dsimp only
    by_cases hty : e.etype = EType.EXCHANGE
    · rw [if_pos hty]
      exact recolorExchange_keeps e id s
    · rw [if_neg hty]
      exact recolorMerge_keeps e (mergeRemnant e bhData) time id s

lemma recolorExchange_idem (e : InteractionEvent) (id : Int) (s : Sphere) :
    recolorExchange e id (recolorExchange e id s) = recolorExchange e id s := by
  unfold recolorExchange
  split_ifs <;> rfl

lemma recolorMerge_idem (e : InteractionEvent) (rid : Option Int) (time : ℝ) (id : Int)
    (s : Sphere) :
    recolorMerge e rid time id (recolorMerge e rid time id s) = recolorMerge e rid time id s := by
  unfold recolorMerge
  split_ifs <;> rfl

lemma recolorNoEvent_idem (env : Env) (s : Sphere) :
    recolorNoEvent env (recolorNoEvent env s) = recolorNoEvent env s := by
  rcases hmin : env.massFilterMin with _ | lo <;> rcases hmax : env.massFilterMax with _ | hi <;>
    simp only [recolorNoEvent, hmin, hmax] <;> split_ifs <;> rfl

lemma colorPass_idem (env : Env) (time : ℝ) (bhData : List BHRecord) (id : Int) (s : Sphere) :
    colorPass env time bhData id (colorPass env time bhData id s) =
      colorPass env time bhData id s := by
  unfold colorPass
  rcases env.selectedEvent with _ | e
  · exact recolorNoEvent_idem env s
  · dsimp only
    by_cases hty : e.etype = EType.EXCHANGE
    · simp only [if_pos hty]
      exact recolorExchange_idem e id s
    · simp only [if_neg hty]
      exact recolorMerge_idem e (mergeRemnant e bhData) time id s

lemma handleExchange_spheres (vsm : ℝ) (e : InteractionEvent) (time : ℝ)
    (bhData : List BHRecord) (com : Vec3) (sph : Int → Option Sphere) :
    (handleExchangeEvent vsm e time bhData com sph).spheres =
      fun id => (sph id).map (recolorExchange e id) := by
  simp only [handleExchangeEvent]
  split_ifs <;> rfl

lemma handleMerge_spheres (env : Env) (e : InteractionEvent) (time : ℝ)
    (bhData : List BHRecord) (com : Vec3) (sph : Int → Option Sphere) :
    (handleMergeEvent env e time bhData com sph).spheres =
      fun id => (sph id).map (recolorMerge e (mergeRemnant e bhData) time id) := by
  simp only [handleMergeEvent]
  split_ifs <;> rfl

lemma handleExchange_transients_indep (vsm : ℝ) (e : InteractionEvent) (time : ℝ)
    (bhData : List BHRecord) (com : Vec3) (sph sph' : Int → Option Sphere) :
    (handleExchangeEvent vsm e time bhData com sph).arrows =
        (handleExchangeEvent vsm e time bhData com sph').arrows ∧
      (handleExchangeEvent vsm e time bhData com sph).ellipses =
        (handleExchangeEvent vsm e time bhData com sph').ellipses := by
  simp only [handleExchangeEvent]
  split_ifs <;> exact ⟨rfl, rfl⟩

lemma handleMerge_transients_indep (env : Env) (e : InteractionEvent) (time : ℝ)
    (bhData : List BHRecord) (com : Vec3) (sph sph' : Int → Option Sphere) :
    (handleMergeEvent env e time bhData com sph).arrows =
        (handleMergeEvent env e time bhData com sph').arrows ∧
      (handleMergeEvent env e time bhData com sph).ellipses =
        (handleMergeEvent env e time bhData com sph').ellipses := by
  simp only [handleMergeEvent]
  split_ifs <;> exact ⟨rfl, rfl⟩

lemma setKin_of_fields (bh : BHRecord) (com : Vec3) (psm : ℝ) (t : Sphere)
    (hb : t.bhData = bh) (hp : t.pos = bh.pos - com) (hsc : t.scale = bh.mass_msun * psm) :
    setKinematics bh com psm t = t := by
  ext1 <;> first | exact hb.symm | exact hp.symm | exact hsc.symm | rfl

lemma update_guard_false (env : Env) (idx : Int)
    (h0 : 0 ≤ idx) (h1 : idx < (env.timeKeys.length : Int)) :
    ¬ ((env.timeKeys.length : Int) ≤ idx ∨ idx < 0) := by
  push_neg
  exact ⟨h1, h0⟩

/-- The spheres produced by an in-range update: reconcile against the
current records, then apply the colour pass. -/
lemma update_bhObjects_eval (env : Env) (idx : Int) (s : VisState)
    (h0 : 0 ≤ idx) (h1 : idx < (env.timeKeys.length : Int)) (id : Int) :
    (updateBlackHoles env idx s).bhObjects id =
      Option.map
        (fun sp => colorPass env (env.timeKeys.getD idx.toNat 0)
          (env.timeData (env.timeKeys.getD idx.toNat 0)) id sp)
        (rebuildBh s.bhObjects (env.timeData (env.timeKeys.getD idx.toNat 0))
          (comOffset env (env.timeKeys.getD idx.toNat 0)
            (env.timeData (env.timeKeys.getD idx.toNat 0)))
          env.particleSizeMultiplier id) := by
  simp only [updateBlackHoles, if_neg (update_guard_false env idx h0 h1)]
  rcases hse : env.selectedEvent with _ | e
  · dsimp only
    congr 1
    funext sp
    simp only [colorPass, hse]
  · dsimp only
    by_cases hty : e.etype = EType.EXCHANGE
    · simp only [if_pos hty, handleExchange_spheres]
      congr 1
      funext sp
      simp only [colorPass, hse, if_pos hty]
    · simp only [if_neg hty, handleMerge_spheres]
      congr 1
      funext sp
      simp only [colorPass, hse, if_neg hty]

/-- The neutron-star spheres produced by an in-range update. -/
lemma update_nsObjects_eval (env : Env) (idx : Int) (s : VisState)
    (h0 : 0 ≤ idx) (h1 : idx < (env.timeKeys.length : Int)) :
    (updateBlackHoles env idx s).nsObjects =
      updateNS env (env.timeKeys.getD idx.toNat 0)
        (comOffset env (env.timeKeys.getD idx.toNat 0)
          (env.timeData (env.timeKeys.getD idx.toNat 0))) s.nsObjects := by
  simp only [updateBlackHoles, if_neg (update_guard_false env idx h0 h1)]

/-- The transient visuals of an in-range update are computed from the data
alone and do not depend on the prior visual state. -/
lemma update_transients_indep (env : Env) (idx : Int) (s s' : VisState)
    (h0 : 0 ≤ idx) (h1 : idx < (env.timeKeys.length : Int)) :
    (updateBlackHoles env idx s).eventVectors = (updateBlackHoles env idx s').eventVectors ∧
      (updateBlackHoles env idx s).ellipses = (updateBlackHoles env idx s').ellipses := by
  simp only [updateBlackHoles, if_neg (update_guard_false env idx h0 h1)]
  rcases hse : env.selectedEvent with _ | e
  · exact ⟨rfl, rfl⟩
  · dsimp only
    by_cases hty : e.etype = EType.EXCHANGE
    · simp only [if_pos hty]
      exact handleExchange_transients_indep _ _ _ _ _ _ _
    · simp only [if_neg hty]
      exact handleMerge_transients_indep _ _ _ _ _ _ _

/-- The last neutron-star record of the list carrying the given id. -/
def lastNs (id : Int) : List NSRecord → Option NSRecord
  | [] => none
  | n :: tl =>
      match lastNs id tl with
      | some r => some r
      | none => if id = n.ns_id then some n else none

/-- The per-frame neutron-star assignments overwrite every field, so the
result does not depend on the prior sphere. -/
lemma setNsKinematics_const (n : NSRecord) (com : Vec3) (psm : ℝ) (vis : Bool)
    (s s' : NSSphere) :
    setNsKinematics n com psm vis s = setNsKinematics n com psm vis s' := rfl

/-- Pointwise evaluation of the neutron-star create-or-update fold. -/
lemma foldNs_eval (com : Vec3) (psm : ℝ) (vis : Bool) (cur : List NSRecord)
    (base : Int → Option NSSphere) (id : Int) :
    cur.foldl
      (fun acc n => fun i =>
        if i = n.ns_id then
          some (setNsKinematics n com psm vis ((acc i).getD (newNSSphere n)))
        else acc i) base id =
      (match lastNs id cur with
       | none => base id
       | some n => some (setNsKinematics n com psm vis ((base id).getD (newNSSphere n)))) := by
  induction cur generalizing base with
  | nil => simp [lastNs]
  | cons b tl ih =>
      rw [List.foldl_cons, ih]
      cases hlast : lastNs id tl with
      | some r =>
          simp only [lastNs, hlast]
          by_cases hb : id = b.ns_id
          · rw [if_pos hb]
            rfl
          · rw [if_neg hb]
      | none =>
          simp only [lastNs, hlast]
          by_cases hb : id = b.ns_id
          · rw [if_pos hb, if_pos hb]
          · rw [if_neg hb, if_neg hb]

lemma lastNs_none_iff (id : Int) (l : List NSRecord) :
    lastNs id l = none ↔ (l.map (·.ns_id)).contains id = false := by
  induction l with
  | nil => simp [lastNs]
  | cons b tl ih =>
      simp only [lastNs, List.map_cons, List.contains_cons]
      cases hlast : lastNs id tl with
      | some r =>
          have hcon : (tl.map (·.ns_id)).contains id = true := by
            rcases hc : (tl.map (·.ns_id)).contains id with _ | _
            · rw [ih.mpr hc] at hlast
              exact absurd hlast (by simp)
            · exact hc
          rw [hcon]
          simp
      | none =>
          have hcon : (tl.map (·.ns_id)).contains id = false := ih.mp hlast
          rw [hcon]
          by_cases hb : id = b.ns_id
          · rw [if_pos hb]
            subst hb
            simp
          · rw [if_neg hb]
            have hbeq : (id == b.ns_id) = false := by
              simp only [beq_eq_false_iff_ne]
              exact hb
            rw [hbeq]
            simp

/-- Pointwise evaluation of updateNS. -/
lemma updateNS_eval (env : Env) (t : ℝ) (com : Vec3) (ns : Int → Option NSSphere)
    (id : Int) :
    updateNS env t com ns id =
      (match lastNs id (env.nsData t) with
       | none => none
       | some n => some (setNsKinematics n com env.particleSizeMultiplier
          env.nsVisibleChecked ((ns id).getD (newNSSphere n)))) := by
  simp only [updateNS]
  rw [foldNs_eval]
  cases hlast : lastNs id (env.nsData t) with
  | none =>
      simp only []
      rw [(lastNs_none_iff id (env.nsData t)).mp hlast]
      simp
  | some n =>
      have hcon : ((env.nsData t).map (·.ns_id)).contains id = true := by
        rcases hc : ((env.nsData t).map (·.ns_id)).contains id with _ | _
        · rw [(lastNs_none_iff id (env.nsData t)).mpr hc] at hlast
          exact absurd hlast (by simp)
        · exact hc
      simp only []
      rw [hcon]
      simp

/-- C9: running the in-range timestep update twice with the same index
produces the identical live-visual set as running it once - the same per-id
black-hole and neutron-star spheres with the same attributes, and equal
transient arrow and ellipse lists. -/
theorem C9_idempotent_update (env : Env) (idx : Int) (s : VisState)
    (h0 : 0 ≤ idx) (h1 : idx < (env.timeKeys.length : Int)) :
    (updateBlackHoles env idx (updateBlackHoles env idx s)).bhObjects =
        (updateBlackHoles env idx s).bhObjects ∧
    (updateBlackHoles env idx (updateBlackHoles env idx s)).nsObjects =
        (updateBlackHoles env idx s).nsObjects ∧
    (updateBlackHoles env idx (updateBlackHoles env idx s)).eventVectors =
        (updateBlackHoles env idx s).eventVectors ∧
    (updateBlackHoles env idx (updateBlackHoles env idx s)).ellipses =
        (updateBlackHoles env idx s).ellipses := by
  refine ⟨?_, ?_, ?_, ?_⟩
  · funext id
    rw [update_bhObjects_eval env idx (updateBlackHoles env idx s) h0 h1 id,
      rebuildBh_eval ((updateBlackHoles env idx s).bhObjects)]
    cases hlast : lastRec id (env.timeData (env.timeKeys.getD idx.toNat 0)) with
    | none =>
        rw [update_bhObjects_eval env idx s h0 h1 id,
          rebuildBh_eval s.bhObjects, hlast]
    | some bh =>
        have hmid : (updateBlackHoles env idx s).bhObjects id =
            some (colorPass env (env.timeKeys.getD idx.toNat 0)
              (env.timeData (env.timeKeys.getD idx.toNat 0)) id
              (setKinematics bh
                (comOffset env (env.timeKeys.getD idx.toNat 0)
                  (env.timeData (env.timeKeys.getD idx.toNat 0)))
                env.particleSizeMultiplier
                ((s.bhObjects id).getD (newSphere bh)))) := by
          rw [update_bhObjects_eval env idx s h0 h1 id, rebuildBh_eval s.bhObjects, hlast]
          rfl
        rw [hmid]
        dsimp only
        simp only [Option.getD_some, Option.map_some']
        have hk := colorPass_keeps env (env.timeKeys.getD idx.toNat 0)
          (env.timeData (env.timeKeys.getD idx.toNat 0)) id
          (setKinematics bh
            (comOffset env (env.timeKeys.getD idx.toNat 0)
              (env.timeData (env.timeKeys.getD idx.toNat 0)))
            env.particleSizeMultiplier
            ((s.bhObjects id).getD (newSphere bh)))
        have hset : setKinematics bh
            (comOffset env (env.timeKeys.getD idx.toNat 0)
              (env.timeData (env.timeKeys.getD idx.toNat 0)))
            env.particleSizeMultiplier
            (colorPass env (env.timeKeys.getD idx.toNat 0)
              (env.timeData (env.timeKeys.getD idx.toNat 0)) id
              (setKinematics bh
                (comOffset env (env.timeKeys.getD idx.toNat 0)
                  (env.timeData (env.timeKeys.getD idx.toNat 0)))
                env.particleSizeMultiplier
                ((s.bhObjects id).getD (newSphere bh)))) =
            colorPass env (env.timeKeys.getD idx.toNat 0)
              (env.timeData (env.timeKeys.getD idx.toNat 0)) id
              (setKinematics bh
                (comOffset env (env.timeKeys.getD idx.toNat 0)
                  (env.timeData (env.timeKeys.getD idx.toNat 0)))
                env.particleSizeMultiplier
                ((s.bhObjects id).getD (newSphere bh))) := by
          apply setKin_of_fields
          · rw [hk.1]
            rfl
          · rw [hk.2.1]
            rfl
          · rw [hk.2.2]
            rfl
        rw [hset]
        rw [colorPass_idem]
  · rw [update_nsObjects_eval env idx (updateBlackHoles env idx s) h0 h1,
      update_nsObjects_eval env idx s h0 h1]
    funext id
    rw [updateNS_eval, updateNS_eval]
    cases hlast : lastNs id (env.nsData (env.timeKeys.getD idx.toNat 0)) with
    | none => rfl
    | some n => rfl
  · exact (update_transients_indep env idx (updateBlackHoles env idx s) s h0 h1).1
  · exact (update_transients_indep env idx (updateBlackHoles env idx s) s h0 h1).2

/-- C9 witness: the idempotence applied at a concrete in-range state. -/
theorem C9_idempotent_update_witness :
    ((0 : Int) ≤ 0) ∧
    ((0 : Int) < ((mkEnv [0] (fun _ => []) none).timeKeys.length : Int)) ∧
    ((updateBlackHoles (mkEnv [0] (fun _ => []) none) 0
        (updateBlackHoles (mkEnv [0] (fun _ => []) none) 0
          ⟨fun _ => none, fun _ => none, [], [], 0, 0, 0, 0⟩)).bhObjects =
      (updateBlackHoles (mkEnv [0] (fun _ => []) none) 0
        ⟨fun _ => none, fun _ => none, [], [], 0, 0, 0, 0⟩).bhObjects ∧
    (updateBlackHoles (mkEnv [0] (fun _ => []) none) 0
        (updateBlackHoles (mkEnv [0] (fun _ => []) none) 0
          ⟨fun _ => none, fun _ => none, [], [], 0, 0, 0, 0⟩)).nsObjects =
      (updateBlackHoles (mkEnv [0] (fun _ => []) none) 0
        ⟨fun _ => none, fun _ => none, [], [], 0, 0, 0, 0⟩).nsObjects ∧
    (updateBlackHoles (mkEnv [0] (fun _ => []) none) 0
        (updateBlackHoles (mkEnv [0] (fun _ => []) none) 0
          ⟨fun _ => none, fun _ => none, [], [], 0, 0, 0, 0⟩)).eventVectors =
      (updateBlackHoles (mkEnv [0] (fun _ => []) none) 0
        ⟨fun _ => none, fun _ => none, [], [], 0, 0, 0, 0⟩).eventVectors ∧
    (updateBlackHoles (mkEnv [0] (fun _ => []) none) 0
        (updateBlackHoles (mkEnv [0] (fun _ => []) none) 0
          ⟨fun _ => none, fun _ => none, [], [], 0, 0, 0, 0⟩)).ellipses =
      (updateBlackHoles (mkEnv [0] (fun _ => []) none) 0
        ⟨fun _ => none, fun _ => none, [], [], 0, 0, 0, 0⟩).ellipses) :=
  ⟨by norm_num, by decide,
   C9_idempotent_update (mkEnv [0] (fun _ => []) none) 0
     ⟨fun _ => none, fun _ => none, [], [], 0, 0, 0, 0⟩ (by norm_num) (by decide)⟩

end

end NBodyVR
